import Mathlib

/-!
Verification development for the personal-accounting backend
(incomes / expenses / transfers, multi-currency balance engine).

The JavaScript source is shallowly embedded:
* JS numbers are exact rationals `ℚ` (the source uses IEEE doubles for
  two-decimal currency values; all claims are about the algebraic structure
  of the computations, which the rational embedding captures exactly);
* JS strings are Lean `String`s, with the ASCII fragment of
  `trim` / `toUpperCase` / lexicographic `<` re-implemented executably
  (the currencies and month keys handled by the program are ASCII);
* `null` / `undefined` inputs are `Option`s, and the nullish coalescing
  operator `??` is `Option.getD`;
* the relational store is a record of lists of rows; query filters
  (`eq`, `is null`, date range) become list filters;
* every route handler is a function `… → Except Err Db`, `Err` listing the
  user-facing error kinds in the order the code checks them.
-/

namespace Conta

/-! ### ASCII string primitives (JS `trim`, `toUpperCase`, `<`) -/

/-- ASCII uppercase of one character (JS `toUpperCase` on the ASCII range). -/
def chUp (c : Char) : Char :=
  if 'a' ≤ c ∧ c ≤ 'z' then Char.ofNat (c.toNat - 32) else c

/-- Whitespace characters removed by JS `trim` (ASCII fragment). -/
def isWsChar (c : Char) : Bool :=
  c = ' ' || c = '\t' || c = '\n' || c = '\r'

/-- Drop leading whitespace from a character list. -/
def dropWsL : List Char → List Char
  | [] => []
  | c :: r => if isWsChar c then dropWsL r else c :: r

/-- JS `String.prototype.trim` (ASCII whitespace). -/
def jsTrim (s : String) : String :=
  ⟨dropWsL ((dropWsL s.data.reverse).reverse)⟩

/-- JS `String.prototype.toUpperCase` (ASCII fragment). -/
def jsUpper (s : String) : String := ⟨s.data.map chUp⟩

/-- JS lexicographic comparison `a <= b` on code units (ASCII fragment). -/
def lexLe : List Char → List Char → Bool
  | [], _ => true
  | _ :: _, [] => false
  | a :: as, b :: bs => if a = b then lexLe as bs else decide (a < b)

/-- String comparison used to model `a < b ? -1 : 1` sort comparators. -/
def strLe (a b : String) : Bool := lexLe a.data b.data

/-! ### Currency conversion helpers (`backend/src/routes/balance.js` lines 5-33) -/

/-- The fixed exchange rate `USD_TO_NIO_RATE = 36.7`. -/
def usdToNioRate : ℚ := 367 / 10

/-- A loosely-typed JS numeric input, as the conversion helpers receive it:
`null`, `undefined`, a finite number, or a value whose `Number(·)` coercion
is not finite (`NaN`, `±Infinity`, an unparseable string, …). -/
inductive JsNum where
  | jnull
  | jundef
  | num (q : ℚ)
  | nonFinite
deriving DecidableEq

/-- The coercion `Number(amount ?? 0)` of the helpers: `some q` when the
result is a finite number `q`, `none` when `Number.isFinite` fails. -/
def coerceAmount : JsNum → Option ℚ
  | .jnull => some 0
  | .jundef => some 0
  | .num q => some q
  | .nonFinite => none

/-- Normalisation `${currency ?? ''}.trim().toUpperCase()` applied by the
helpers to a possibly-`null` currency value. -/
def normCurRaw (currency : Option String) : String :=
  jsUpper (jsTrim (currency.getD ""))

/-- The helper `toNio` of `balance.js`: convert an amount tagged with a
currency into the local currency (NIO), returning 0 for non-finite input
and the amount unchanged when the normalised currency is "NIO" or empty. -/
def toNio (amount : JsNum) (currency : Option String) : ℚ :=
  match coerceAmount amount with
  | none => 0
  | some q =>
    let nc := normCurRaw currency
    if nc = "NIO" ∨ nc = "" then q else q * usdToNioRate

/-- The helper `toUsd` of `balance.js`: convert an amount tagged with a
currency into USD, returning 0 for non-finite input and the amount
unchanged when the normalised currency is "USD". -/
def toUsd (amount : JsNum) (currency : Option String) : ℚ :=
  match coerceAmount amount with
  | none => 0
  | some q =>
    let nc := normCurRaw currency
    if nc = "USD" then q else q / usdToNioRate

/-! ### Shared account helpers (`backend/src/utils/accounts.js`) -/

/-- The helper `normalizeCurrency`: trim and uppercase, then accept only the
two supported currencies, returning `null` (here `none`) otherwise. -/
def normalizeCurrency (value : Option String) : Option String :=
  match value with
  | none => none
  | some v =>
    let normalized := jsUpper (jsTrim v)
    if normalized = "NIO" ∨ normalized = "USD" then some normalized else none

end Conta

namespace Conta

/-! ### C6: conversion round-trip, and C9: totality of the helpers -/

theorem normCurRaw_nio : normCurRaw (some "NIO") = "NIO" := rfl

theorem normCurRaw_usd : normCurRaw (some "USD") = "USD" := rfl

/-- C6: for every non-negative rational `x`, converting `x` from the local
currency to USD and back returns exactly `x` (the rational embedding is
exact, so the floating tolerance of the claim is met with equality):
`toNio (toUsd x "NIO") "USD" = x`. -/
theorem conversion_round_trip (x : ℚ) (hx : 0 ≤ x) :
    toNio (.num (toUsd (.num x) (some "NIO"))) (some "USD") = x := by
  have hrate : usdToNioRate ≠ 0 := by norm_num [usdToNioRate]
  have h1 : toUsd (.num x) (some "NIO") = x / usdToNioRate := by
    simp only [toUsd, coerceAmount, normCurRaw_nio]
    rw [if_neg (by decide)]
  rw [h1]
  simp only [toNio, coerceAmount, normCurRaw_usd]
  rw [if_neg (by decide)]
  exact div_mul_cancel₀ x hrate

/-- Witness for C6 at the concrete input `x = 3`. -/
theorem conversion_round_trip_witness :
    toNio (.num (toUsd (.num 3) (some "NIO"))) (some "USD") = 3 :=
  conversion_round_trip 3 (by norm_num)

/-- C9: the conversion helpers are total: on `null`, `undefined` and
non-finite amounts both return exactly 0 (for every currency value), and
`toNio` treats a `null`/`undefined` or empty-after-trim currency as already
local, returning the coerced amount unchanged. -/
theorem conversion_helpers_total :
    (∀ c : Option String,
        toNio .jnull c = 0 ∧ toNio .jundef c = 0 ∧ toNio .nonFinite c = 0 ∧
        toUsd .jnull c = 0 ∧ toUsd .jundef c = 0 ∧ toUsd .nonFinite c = 0) ∧
    (∀ q : ℚ, toNio (.num q) none = q) ∧
    (∀ (q : ℚ) (s : String), jsTrim s = "" → toNio (.num q) (some s) = q) := by
  refine ⟨fun c => ?_, fun q => ?_, fun q s hs => ?_⟩
  · refine ⟨?_, ?_, ?_, ?_, ?_, ?_⟩ <;>
      simp only [toNio, toUsd, coerceAmount] <;>
      split <;> norm_num
  · simp [toNio, coerceAmount, normCurRaw, jsUpper, jsTrim, dropWsL]
  · simp [toNio, coerceAmount, normCurRaw, hs, jsUpper]

/-- Witness for C9 at a whitespace-only currency string and `q = 7`. -/
theorem conversion_helpers_total_witness :
    toNio (.num 7) (some "  ") = 7 := by
  have h := conversion_helpers_total.2.2 7 "  " (by decide)
  exact h

/-! ### Data model: persisted rows and the row store

Soft deletion (`deleted_at` timestamp) is modelled by a boolean `deleted`
flag: every query in the source filters `deleted_at IS NULL`, which is
`!r.deleted` here. -/

/-- The `source` / `from_type` / `to_type` column: `'cash' | 'bank'`. -/
inductive SrcType where
  | cash
  | bank
deriving DecidableEq

/-- A row of the `incomes` table (the columns the engine reads). -/
structure IncomeRow where
  id : Nat
  user_id : Nat
  amount : ℚ
  currency : String
  source : SrcType
  account_id : Option Nat
  date : String
  deleted : Bool
deriving DecidableEq

/-- A row of the `expenses` table (the columns the engine reads). -/
structure ExpenseRow where
  id : Nat
  user_id : Nat
  amount : ℚ
  currency : String
  source : SrcType
  account_id : Option Nat
  date : String
  deleted : Bool
deriving DecidableEq

/-- A row of the `transfers` table (the columns the engine reads). -/
structure TransferRow where
  id : Nat
  user_id : Nat
  amount : ℚ
  currency : String
  from_type : SrcType
  from_account_id : Option Nat
  to_type : SrcType
  to_account_id : Option Nat
  date : String
  deleted : Bool
deriving DecidableEq

/-- A row of the `accounts` table (the columns the engine reads). -/
structure AccountRow where
  id : Nat
  user_id : Nat
  name : Option String
  bank_institution : Option String
  institution_name : Option String
  currency : String
  initial_balance : ℚ
  deleted : Bool
deriving DecidableEq

/-- The row store: the four tables the balance engine touches. -/
structure Db where
  incomes : List IncomeRow
  expenses : List ExpenseRow
  transfers : List TransferRow
  accounts : List AccountRow
deriving DecidableEq

/-- The helper `loadUserAccount`: look up an account by id and owner,
excluding soft-deleted rows. -/
def loadUserAccount (db : Db) (userId : Nat) (accountId : Option Nat) :
    Option AccountRow :=
  match accountId with
  | none => none
  | some aid =>
    db.accounts.find? fun a => a.id == aid && a.user_id == userId && !a.deleted

/-- The helper `ensureAccountCurrency`: with no account every currency
passes; with an account the normalised currency must equal the account's
configured currency (`null === account.currency` is false). -/
def ensureAccountCurrency (account : Option AccountRow) (currency : Option String) : Bool :=
  match account with
  | none => true
  | some a => normalizeCurrency currency == some a.currency

/-! ### The balance calculator
(`backend/src/utils/account-balance.js`, `computeAccountBalance`) -/

/-- Summation `rows.reduce((acc, row) => acc + Number(row.amount ?? 0), 0)`. -/
def sumAmounts {α : Type} (f : α → ℚ) (rows : List α) : ℚ :=
  rows.foldl (fun acc r => acc + f r) 0

/-- Filter of the `incomes` query in `computeAccountBalance`: same user,
same source, same (already normalised) currency, not soft-deleted, and the
account id equal to the requested one for a bank pool / `NULL` for cash. -/
def incomeLedgerFilter (userId : Nat) (source : SrcType) (accountId : Option Nat)
    (cur : String) (r : IncomeRow) : Bool :=
  r.user_id == userId && r.source == source && r.currency == cur && !r.deleted &&
    (match source with
     | .bank => r.account_id == accountId
     | .cash => r.account_id == none)

/-- Filter of the `expenses` query in `computeAccountBalance`. -/
def expenseLedgerFilter (userId : Nat) (source : SrcType) (accountId : Option Nat)
    (cur : String) (r : ExpenseRow) : Bool :=
  r.user_id == userId && r.source == source && r.currency == cur && !r.deleted &&
    (match source with
     | .bank => r.account_id == accountId
     | .cash => r.account_id == none)

/-- Filter of the outgoing-transfers query in `computeAccountBalance`
(`from_type` / `from_account_id` side). -/
def outgoingLedgerFilter (userId : Nat) (source : SrcType) (accountId : Option Nat)
    (cur : String) (r : TransferRow) : Bool :=
  r.user_id == userId && r.from_type == source && r.currency == cur && !r.deleted &&
    (match source with
     | .bank => r.from_account_id == accountId
     | .cash => r.from_account_id == none)

/-- Filter of the incoming-transfers query in `computeAccountBalance`
(`to_type` / `to_account_id` side). -/
def incomingLedgerFilter (userId : Nat) (source : SrcType) (accountId : Option Nat)
    (cur : String) (r : TransferRow) : Bool :=
  r.user_id == userId && r.to_type == source && r.currency == cur && !r.deleted &&
    (match source with
     | .bank => r.to_account_id == accountId
     | .cash => r.to_account_id == none)

/-- The balance calculator `computeAccountBalance`: normalise the currency,
filter the four ledgers, sum the amounts, and add the initial balance —
which the code takes from the supplied account record whenever the pool is
a bank pool (`source === 'bank' ? Number(account?.initial_balance ?? 0) : 0`),
with no condition on the currency. -/
def computeAccountBalance (db : Db) (userId : Nat) (source : SrcType)
    (accountId : Option Nat) (currency : Option String)
    (account : Option AccountRow) : ℚ :=
  let normalizedCurrency := normCurRaw currency
  let totalIncomes :=
    sumAmounts (·.amount) (db.incomes.filter (incomeLedgerFilter userId source accountId normalizedCurrency))
  let totalExpenses :=
    sumAmounts (·.amount) (db.expenses.filter (expenseLedgerFilter userId source accountId normalizedCurrency))
  let totalOutgoing :=
    sumAmounts (·.amount) (db.transfers.filter (outgoingLedgerFilter userId source accountId normalizedCurrency))
  let totalIncoming :=
    sumAmounts (·.amount) (db.transfers.filter (incomingLedgerFilter userId source accountId normalizedCurrency))
  let initialBalance : ℚ :=
    match source with
    | .bank => (account.map (·.initial_balance)).getD 0
    | .cash => 0
  initialBalance + totalIncomes + totalIncoming - totalExpenses - totalOutgoing

/-! ### C1: the balance formula -/

/-- The balance formula exactly as claim C1 words it: the same ledger
filters and sums, but the initial balance contributes exactly when the pool
is a bank account AND the normalised query currency equals the account's
configured currency (else 0; always 0 for cash). -/
def claimedBalanceC1 (db : Db) (userId : Nat) (source : SrcType)
    (accountId : Option Nat) (currency : Option String)
    (account : Option AccountRow) : ℚ :=
  let c := normCurRaw currency
  let initial : ℚ :=
    match source, account with
    | .bank, some a => if a.currency = c then a.initial_balance else 0
    | _, _ => 0
  initial
    + ((db.incomes.filter (incomeLedgerFilter userId source accountId c)).map (·.amount)).sum
    + ((db.transfers.filter (incomingLedgerFilter userId source accountId c)).map (·.amount)).sum
    - ((db.expenses.filter (expenseLedgerFilter userId source accountId c)).map (·.amount)).sum
    - ((db.transfers.filter (outgoingLedgerFilter userId source accountId c)).map (·.amount)).sum

/-- The balance formula with the claim's initial-balance condition amended
to what the code computes: the supplied account record's initial balance
contributes whenever the pool is a bank pool, regardless of the query
currency (and 0 when no account record is supplied, or for cash). -/
def amendedBalanceC1 (db : Db) (userId : Nat) (source : SrcType)
    (accountId : Option Nat) (currency : Option String)
    (account : Option AccountRow) : ℚ :=
  let c := normCurRaw currency
  let initial : ℚ :=
    match source, account with
    | .bank, some a => a.initial_balance
    | _, _ => 0
  initial
    + ((db.incomes.filter (incomeLedgerFilter userId source accountId c)).map (·.amount)).sum
    + ((db.transfers.filter (incomingLedgerFilter userId source accountId c)).map (·.amount)).sum
    - ((db.expenses.filter (expenseLedgerFilter userId source accountId c)).map (·.amount)).sum
    - ((db.transfers.filter (outgoingLedgerFilter userId source accountId c)).map (·.amount)).sum

theorem sumAmounts_shift {α : Type} (f : α → ℚ) (l : List α) (c : ℚ) :
    l.foldl (fun acc r => acc + f r) c = c + (l.map f).sum := by
  induction l generalizing c with
  | nil => simp
  | cons x xs ih => simp [List.foldl_cons, ih, add_assoc]

theorem sumAmounts_eq_map_sum {α : Type} (f : α → ℚ) (l : List α) :
    sumAmounts f l = (l.map f).sum := by
  simpa using sumAmounts_shift f l 0

theorem sumAmounts_cons {α : Type} (f : α → ℚ) (x : α) (l : List α) :
    sumAmounts f (x :: l) = f x + sumAmounts f l := by
  simp [sumAmounts_eq_map_sum]

/-- A concrete store refuting C1 as stated: one bank account, owned by user
1, configured in NIO with initial balance 100, and no movements at all. -/
def acctC1 : AccountRow :=
  { id := 1, user_id := 1, name := some "Bank-X", bank_institution := none,
    institution_name := none, currency := "NIO", initial_balance := 100,
    deleted := false }

/-- The store for the C1 counterexample: just the account, no movements. -/
def dbC1 : Db := { incomes := [], expenses := [], transfers := [], accounts := [acctC1] }

/-- Counterexample to C1 as stated: querying the NIO-configured bank account
for currency "USD", the code still adds the initial balance (result 100),
while the claim's formula says the initial contributes only when the
currency matches the account's configured currency (result 0). -/
theorem computeAccountBalance_c1_counterexample :
    computeAccountBalance dbC1 1 .bank (some 1) (some "USD") (some acctC1) = 100 ∧
    claimedBalanceC1 dbC1 1 .bank (some 1) (some "USD") (some acctC1) = 0 := by
  constructor
  · show (100 : ℚ) + 0 + 0 - 0 - 0 = 100
    norm_num
  · show (0 : ℚ) + 0 + 0 - 0 - 0 = 0
    norm_num

/-- C1 amended: for every store, user, pool and currency, the balance
computed by `computeAccountBalance` equals the claim's ledger formula
`initial + Σincomes + Σtransfers_in − Σexpenses − Σtransfers_out` over the
rows passing the ledger filter, where the initial balance is the supplied
account record's configured initial balance whenever the pool is a bank
pool (regardless of the query currency, 0 when no account record is
supplied), and 0 for the cash pool. -/
theorem computeAccountBalance_ledger_formula (db : Db) (userId : Nat)
    (source : SrcType) (accountId : Option Nat) (currency : Option String)
    (account : Option AccountRow) :
    computeAccountBalance db userId source accountId currency account =
      amendedBalanceC1 db userId source accountId currency account := by
  unfold computeAccountBalance amendedBalanceC1
  cases source <;> cases account <;>
    simp [sumAmounts_eq_map_sum]

/-! ### Movement validator / route handlers

Each write route becomes a function `… → Except Err Db`: `.error` is a
4xx rejection before any persistence, `.ok` the store after the write.
Checks appear in the order the code performs them. Category validation,
date parsing and note length are not modelled (they never touch amounts,
pools or currencies, which is all the claims speak about); storage errors
(5xx) are likewise out of scope. -/

/-- The user-facing error kinds of the write routes (spec §7). -/
inductive Err where
  | badRequest
  | invalidAccount
  | currencyMismatch
  | sameAccount
  | insufficientBalance
  | notFound
deriving DecidableEq

/-- The zod parse of a `currency` field with `.trim().min(1).max(8)` and a
default: trim, then require 1..8 characters; a missing field takes the
schema default. -/
def parseCurrencyField (dflt : String) (c : Option String) : Except Err String :=
  match c with
  | none => .ok dflt
  | some s =>
    let t := jsTrim s
    if 1 ≤ t.data.length ∧ t.data.length ≤ 8 then .ok t else .error .badRequest

/-- The zod parse of an optional `currency` field (partial update schema). -/
def parseCurrencyOpt (c : Option String) : Except Err (Option String) :=
  match c with
  | none => .ok none
  | some s =>
    let t := jsTrim s
    if 1 ≤ t.data.length ∧ t.data.length ≤ 8 then .ok (some t) else .error .badRequest

/-- The normalised payload of an income/expense create
(`incomeSchema` / `expenseSchema`): `currency` defaults to `'USD'`,
`source` to `'cash'`; `none` models a missing or `null` field. -/
structure MovPayload where
  amount : ℚ
  currency : Option String
  source : SrcType
  account_id : Option Nat
  date : String
deriving DecidableEq

/-- The payload of a transfer create/update (`transferSchema`; all fields
required except the account ids and the note). -/
structure TransferPayload where
  amount : ℚ
  currency : String
  date : String
  source_type : SrcType
  source_account_id : Option Nat
  destination_type : SrcType
  destination_account_id : Option Nat
deriving DecidableEq

/-- The payload of an income/expense update (`…Schema.partial()`): every
field optional. An explicit `null` and a missing field are merged into
`none` (the code treats them identically through `??`). -/
structure MovPutPayload where
  amount : Option ℚ
  currency : Option String
  source : Option SrcType
  account_id : Option Nat
  date : Option String
  note : Option String
deriving DecidableEq

/-- Whether a partial update payload carries any change
(`Object.keys(payload).length === 0` check). -/
def MovPutPayload.nonempty (p : MovPutPayload) : Bool :=
  p.amount.isSome || p.currency.isSome || p.source.isSome ||
    p.account_id.isSome || p.date.isSome || p.note.isSome

/-- Account resolution of the income/expense create routes: for a bank
source the account id must be present and resolve through
`loadUserAccount`, and `ensureAccountCurrency` must accept the parsed
payload currency; for cash the account id is forced to `null`. Returns the
resolved record and the account id that will be persisted. -/
def resolveCreateAccount (db : Db) (userId : Nat) (source : SrcType)
    (account_id : Option Nat) (cur : String) :
    Except Err (Option AccountRow × Option Nat) :=
  match source with
  | .cash => .ok (none, none)
  | .bank =>
    match account_id with
    | none => .error .invalidAccount
    | some aid =>
      match loadUserAccount db userId (some aid) with
      | none => .error .invalidAccount
      | some acct =>
        if ensureAccountCurrency (some acct) (some cur)
        then .ok (some acct, some aid)
        else .error .currencyMismatch

/-- The persisted currency of an income/expense create: the resolved
account's configured currency when a bank account is referenced, else the
client currency normalised, defaulting to `'USD'`
(`accountRecord ? accountRecord.currency : normalizeCurrency(payload.currency) ?? 'USD'`). -/
def movCreateCurrency (acct : Option AccountRow) (cur : String) : String :=
  match acct with
  | some a => a.currency
  | none => (normalizeCurrency (some cur)).getD "USD"

/-- The income create route (`incomesRoutes` POST). Incomes never debit a
pool, so there is no balance gate. The new row is prepended to the table. -/
def incomeCreateH (db : Db) (userId newId : Nat) (p : MovPayload) : Except Err Db :=
  match parseCurrencyField "USD" p.currency with
  | .error e => .error e
  | .ok cur =>
    if p.amount < 0 then .error .badRequest else
    match resolveCreateAccount db userId p.source p.account_id cur with
    | .error e => .error e
    | .ok (acct, aid) =>
      let nc := movCreateCurrency acct cur
      .ok { db with incomes :=
        { id := newId, user_id := userId, amount := p.amount, currency := nc,
          source := p.source, account_id := aid, date := p.date,
          deleted := false } :: db.incomes }

/-- The expense create route (`expensesRoutes` POST): like the income
create, plus the sufficient-balance gate
(`accountBalance < Number(payload.amount ?? 0)` rejects). -/
def expenseCreateH (db : Db) (userId newId : Nat) (p : MovPayload) : Except Err Db :=
  match parseCurrencyField "USD" p.currency with
  | .error e => .error e
  | .ok cur =>
    if p.amount < 0 then .error .badRequest else
    match resolveCreateAccount db userId p.source p.account_id cur with
    | .error e => .error e
    | .ok (acct, aid) =>
      let nc := movCreateCurrency acct cur
      let accountBalance := computeAccountBalance db userId p.source aid (some nc) acct
      if accountBalance < p.amount then .error .insufficientBalance
      else .ok { db with expenses :=
        { id := newId, user_id := userId, amount := p.amount, currency := nc,
          source := p.source, account_id := aid, date := p.date,
          deleted := false } :: db.expenses }

/-- Account resolution of one side of a transfer: for a bank side the id
must be present and resolve; for a cash side the id is forced to `null`.
(The currency check happens later in the transfer routes.) -/
def resolveTransferSide (db : Db) (userId : Nat) (side : SrcType)
    (account_id : Option Nat) : Except Err (Option AccountRow × Option Nat) :=
  match side with
  | .cash => .ok (none, none)
  | .bank =>
    match account_id with
    | none => .error .invalidAccount
    | some aid =>
      match loadUserAccount db userId (some aid) with
      | none => .error .invalidAccount
      | some acct => .ok (some acct, some aid)

/-- The persisted currency of a transfer:
`normalizeCurrency(sourceAccount?.currency ?? destinationAccount?.currency ?? payload.currency) ?? 'NIO'`. -/
def transferCurrency (srcAcct dstAcct : Option AccountRow) (cur : String) : String :=
  (normalizeCurrency ((srcAcct.map (·.currency)).orElse
    (fun _ => (dstAcct.map (·.currency)).orElse (fun _ => some cur)))).getD "NIO"

/-- The transfer create route (`transfersRoutes` POST): resolve both sides,
reject `SameAccount` when both sides are bank and carry the same id, force
the currency, check both account currencies, gate on the source pool's
balance, then insert. -/
def transferCreateH (db : Db) (userId newId : Nat) (p : TransferPayload) : Except Err Db :=
  if ¬ (0 < p.amount) then .error .badRequest else
  match parseCurrencyField "NIO" (some p.currency) with
  | .error e => .error e
  | .ok cur =>
    match resolveTransferSide db userId p.source_type p.source_account_id with
    | .error e => .error e
    | .ok (srcAcct, srcId) =>
      match resolveTransferSide db userId p.destination_type p.destination_account_id with
      | .error e => .error e
      | .ok (dstAcct, dstId) =>
        if p.source_type = .bank ∧ p.destination_type = .bank ∧ srcId = dstId
        then .error .sameAccount else
        let nc := transferCurrency srcAcct dstAcct cur
        if ¬ ensureAccountCurrency srcAcct (some nc) then .error .currencyMismatch else
        if ¬ ensureAccountCurrency dstAcct (some nc) then .error .currencyMismatch else
        let availableBalance := computeAccountBalance db userId p.source_type
          (match p.source_type with | .bank => srcId | .cash => none) (some nc) srcAcct
        if availableBalance < p.amount then .error .insufficientBalance
        else .ok { db with transfers :=
          { id := newId, user_id := userId, amount := p.amount, currency := nc,
            from_type := p.source_type, from_account_id := srcId,
            to_type := p.destination_type, to_account_id := dstId,
            date := p.date, deleted := false } :: db.transfers }

/-- The update written to every matching income row by the income PUT
(columns absent from the sanitized update keep the row's stored value). -/
def applyIncomeUpdate (p : MovPutPayload) (nextCurrency : String)
    (nextSource : SrcType) (nextAccountId : Option Nat) (r : IncomeRow) : IncomeRow :=
  { r with
    amount := p.amount.getD r.amount,
    currency := nextCurrency,
    source := nextSource,
    account_id := nextAccountId,
    date := p.date.getD r.date }

/-- The income update route (`incomesRoutes` PUT): resolve the next
source/account/currency from the merged payload and stored row; incomes
have no balance gate, so the update is applied directly. -/
def incomePutH (db : Db) (userId movId : Nat) (p : MovPutPayload) : Except Err Db :=
  if ¬ p.nonempty then .error .badRequest else
  match parseCurrencyOpt p.currency with
  | .error e => .error e
  | .ok pcur =>
    if (p.amount.getD 0) < 0 then .error .badRequest else
    match db.incomes.find? (fun r => r.id == movId && r.user_id == userId && !r.deleted) with
    | none => .error .notFound
    | some current =>
      let nextSource := p.source.getD current.source
      match nextSource with
      | .bank =>
        match (p.account_id).orElse (fun _ => current.account_id) with
        | none => .error .invalidAccount
        | some cand =>
          match loadUserAccount db userId (some cand) with
          | none => .error .invalidAccount
          | some acct =>
            let nextCurrency := acct.currency
            if ¬ ensureAccountCurrency (some acct) (some nextCurrency)
            then .error .currencyMismatch
            else .ok { db with incomes := db.incomes.map (fun r =>
              if r.id == movId && r.user_id == userId && !r.deleted
              then applyIncomeUpdate p nextCurrency .bank (some acct.id) r else r) }
      | .cash =>
        let nextCurrency := (normalizeCurrency ((pcur).orElse (fun _ => some current.currency))).getD "NIO"
        .ok { db with incomes := db.incomes.map (fun r =>
          if r.id == movId && r.user_id == userId && !r.deleted
          then applyIncomeUpdate p nextCurrency .cash none r else r) }

/-- Account resolution of the expense PUT: for a bank next-source the
candidate id is `payload.account_id ?? current.account_id` and must
resolve; the resolved pair carries `nextAccountId = accountRecord.id`.
For cash both components stay `null` at this point. -/
def resolvePutAccount (db : Db) (userId : Nat) (nextSource : SrcType)
    (payloadAid currentAid : Option Nat) :
    Except Err (Option AccountRow × Option Nat) :=
  match nextSource with
  | .cash => .ok (none, none)
  | .bank =>
    match payloadAid.orElse (fun _ => currentAid) with
    | none => .error .invalidAccount
    | some cand =>
      match loadUserAccount db userId (some cand) with
      | none => .error .invalidAccount
      | some acct => .ok (some acct, some acct.id)

/-- The `switchingAccount` test of the expense PUT:
`current.source !== nextSource || (nextSource === 'bank' ? current.account_id !== nextAccountId : current.account_id !== null)`. -/
def expenseSwitchingAccount (current : ExpenseRow) (nextSource : SrcType)
    (nextAccountId : Option Nat) : Bool :=
  current.source != nextSource ||
    (match nextSource with
     | .bank => current.account_id != nextAccountId
     | .cash => current.account_id != none)

/-- The update written to every matching expense row by the expense PUT
(`updates.amount` is always `nextAmount`; the date keeps the stored value
when absent from the payload). -/
def applyExpenseUpdate (nextAmount : ℚ) (nextCurrency : String)
    (nextSource : SrcType) (nextAccountId : Option Nat) (p : MovPutPayload)
    (r : ExpenseRow) : ExpenseRow :=
  { r with
    amount := nextAmount,
    currency := nextCurrency,
    source := nextSource,
    account_id := nextAccountId,
    date := p.date.getD r.date }

/-- The expense update route (`expensesRoutes` PUT): resolve the next
source/account/currency/amount, recompute the next pool's balance, add
back the movement's own stored amount exactly when `switchingAccount`
is false, gate, then update the row. -/
def expensePutH (db : Db) (userId movId : Nat) (p : MovPutPayload) : Except Err Db :=
  if ¬ p.nonempty then .error .badRequest else
  match parseCurrencyOpt p.currency with
  | .error e => .error e
  | .ok pcur =>
    if (p.amount.getD 0) < 0 then .error .badRequest else
    match db.expenses.find? (fun r => r.id == movId && r.user_id == userId && !r.deleted) with
    | none => .error .notFound
    | some current =>
      let nextSource := p.source.getD current.source
      match resolvePutAccount db userId nextSource p.account_id current.account_id with
      | .error e => .error e
      | .ok (acct, nextAid) =>
        let nextCurrency :=
          match acct with
          | some a => a.currency
          | none => (normalizeCurrency (pcur.orElse (fun _ => some current.currency))).getD "NIO"
        let nextAmount := p.amount.getD current.amount
        if ¬ ensureAccountCurrency acct (some nextCurrency) then .error .currencyMismatch else
        let currentBalance := computeAccountBalance db userId nextSource
          (match nextSource with | .bank => nextAid | .cash => none) (some nextCurrency) acct
        let availableBeforeUpdate :=
          if expenseSwitchingAccount current nextSource nextAid
          then currentBalance else currentBalance + current.amount
        if availableBeforeUpdate < nextAmount then .error .insufficientBalance
        else
          let finalAid := match nextSource with | .bank => nextAid | .cash => none
          .ok { db with expenses := db.expenses.map (fun r =>
            if r.id == movId && r.user_id == userId && !r.deleted
            then applyExpenseUpdate nextAmount nextCurrency nextSource finalAid p r else r) }

/-- The `isSameSource` test of the transfer PUT: same `from_type`, same
(nullish-normalised) source account id, and the stored currency normalised
(`normalizeCurrency(current.currency) ?? 'NIO'`) equal to the new one. -/
def transferIsSameSource (current : TransferRow) (sourceType : SrcType)
    (srcId : Option Nat) (nc : String) : Bool :=
  current.from_type == sourceType && current.from_account_id == srcId &&
    ((normalizeCurrency (some current.currency)).getD "NIO" == nc)

/-- The update written to every matching transfer row by the transfer PUT
(the schema is total, so every column is overwritten). -/
def applyTransferUpdate (p : TransferPayload) (nc : String)
    (srcId dstId : Option Nat) (r : TransferRow) : TransferRow :=
  { r with
    amount := p.amount,
    currency := nc,
    from_type := p.source_type,
    from_account_id := srcId,
    to_type := p.destination_type,
    to_account_id := dstId,
    date := p.date }

/-- The transfer update route (`transfersRoutes` PUT): fetch the stored
row, resolve both sides, reject `SameAccount`, force the currency, check
both account currencies, recompute the source pool's balance, add back the
stored amount exactly when `isSameSource`, gate, then update the row. -/
def transferPutH (db : Db) (userId movId : Nat) (p : TransferPayload) : Except Err Db :=
  if ¬ (0 < p.amount) then .error .badRequest else
  match parseCurrencyField "NIO" (some p.currency) with
  | .error e => .error e
  | .ok cur =>
    match db.transfers.find? (fun r => r.id == movId && r.user_id == userId && !r.deleted) with
    | none => .error .notFound
    | some current =>
      match resolveTransferSide db userId p.source_type p.source_account_id with
      | .error e => .error e
      | .ok (srcAcct, srcId) =>
        match resolveTransferSide db userId p.destination_type p.destination_account_id with
        | .error e => .error e
        | .ok (dstAcct, dstId) =>
          if p.source_type = .bank ∧ p.destination_type = .bank ∧ srcId = dstId
          then .error .sameAccount else
          let nc := transferCurrency srcAcct dstAcct cur
          if ¬ ensureAccountCurrency srcAcct (some nc) then .error .currencyMismatch else
          if ¬ ensureAccountCurrency dstAcct (some nc) then .error .currencyMismatch else
          let availableBalance := computeAccountBalance db userId p.source_type
            (match p.source_type with | .bank => srcId | .cash => none) (some nc) srcAcct
          let availableIncludingCurrent :=
            if transferIsSameSource current p.source_type srcId nc
            then availableBalance + current.amount else availableBalance
          if availableIncludingCurrent < p.amount then .error .insufficientBalance
          else .ok { db with transfers := db.transfers.map (fun r =>
            if r.id == movId && r.user_id == userId && !r.deleted
            then applyTransferUpdate p nc srcId dstId r else r) }

/-! ### Soft deletes (DELETE routes set `deleted_at`, with no balance check) -/

/-- The income DELETE route: mark matching live rows deleted. -/
def incomeDeleteH (db : Db) (userId movId : Nat) : Db :=
  { db with incomes := db.incomes.map (fun r =>
      if r.id == movId && r.user_id == userId && !r.deleted
      then { r with deleted := true } else r) }

/-- The expense DELETE route: mark matching live rows deleted. -/
def expenseDeleteH (db : Db) (userId movId : Nat) : Db :=
  { db with expenses := db.expenses.map (fun r =>
      if r.id == movId && r.user_id == userId && !r.deleted
      then { r with deleted := true } else r) }

/-- The transfer DELETE route: mark matching live rows deleted. -/
def transferDeleteH (db : Db) (userId movId : Nat) : Db :=
  { db with transfers := db.transfers.map (fun r =>
      if r.id == movId && r.user_id == userId && !r.deleted
      then { r with deleted := true } else r) }

/-! ### Sequences of operations -/

/-- One request against the write routes, for a fixed user. Create
operations carry the id the store will assign to the new row. -/
inductive Op where
  | incomeCreate (newId : Nat) (p : MovPayload)
  | expenseCreate (newId : Nat) (p : MovPayload)
  | transferCreate (newId : Nat) (p : TransferPayload)
  | incomePut (movId : Nat) (p : MovPutPayload)
  | expensePut (movId : Nat) (p : MovPutPayload)
  | transferPut (movId : Nat) (p : TransferPayload)
  | incomeDelete (movId : Nat)
  | expenseDelete (movId : Nat)
  | transferDelete (movId : Nat)
deriving DecidableEq

/-- Whether an operation is a create. -/
def Op.isCreate : Op → Bool
  | .incomeCreate _ _ => true
  | .expenseCreate _ _ => true
  | .transferCreate _ _ => true
  | _ => false

/-- Keep the stored state on a rejected request. -/
def orKeep (db : Db) : Except Err Db → Db
  | .ok db' => db'
  | .error _ => db

/-- Apply one request: a rejected request leaves the store unchanged
(validation failures prevent the write entirely). -/
def applyOp (userId : Nat) (db : Db) : Op → Db
  | .incomeCreate i p => orKeep db (incomeCreateH db userId i p)
  | .expenseCreate i p => orKeep db (expenseCreateH db userId i p)
  | .transferCreate i p => orKeep db (transferCreateH db userId i p)
  | .incomePut i p => orKeep db (incomePutH db userId i p)
  | .expensePut i p => orKeep db (expensePutH db userId i p)
  | .transferPut i p => orKeep db (transferPutH db userId i p)
  | .incomeDelete i => incomeDeleteH db userId i
  | .expenseDelete i => expenseDeleteH db userId i
  | .transferDelete i => transferDeleteH db userId i

/-- Run a sequence of requests left to right. -/
def run (userId : Nat) (db : Db) (ops : List Op) : Db :=
  ops.foldl (applyOp userId) db

/-! ### C5: the distinct-accounts rule for transfers -/

/-- C5: for every transfer create or update whose two sides are both
bank-type and resolve to the identical account id, the operation fails
with the `SameAccount` error and the store is unchanged (the handler
returns before the currency check, the balance gate and any write). -/
theorem transfer_same_account_rejected
    (db : Db) (userId newId movId i : Nat) (p : TransferPayload)
    (a : AccountRow) (current : TransferRow)
    (hamt : 0 < p.amount)
    (hlen : 1 ≤ (jsTrim p.currency).data.length ∧ (jsTrim p.currency).data.length ≤ 8)
    (hs : p.source_type = .bank) (hd : p.destination_type = .bank)
    (hsi : p.source_account_id = some i) (hdi : p.destination_account_id = some i)
    (hload : loadUserAccount db userId (some i) = some a)
    (hfound : db.transfers.find?
      (fun r => r.id == movId && r.user_id == userId && !r.deleted) = some current) :
    transferCreateH db userId newId p = .error .sameAccount ∧
    transferPutH db userId movId p = .error .sameAccount ∧
    applyOp userId db (.transferCreate newId p) = db ∧
    applyOp userId db (.transferPut movId p) = db := by
  have hres : resolveTransferSide db userId SrcType.bank (some i) = .ok (some a, some i) := by
    simp [resolveTransferSide, hload]
  have h1 : transferCreateH db userId newId p = .error .sameAccount := by
    unfold transferCreateH
    rw [if_neg (not_not_intro hamt)]
    simp only [parseCurrencyField]
    rw [if_pos hlen, hs, hd, hsi, hdi, hres]
    simp
  have h2 : transferPutH db userId movId p = .error .sameAccount := by
    unfold transferPutH
    rw [if_neg (not_not_intro hamt)]
    simp only [parseCurrencyField]
    rw [if_pos hlen, hfound, hs, hd, hsi, hdi, hres]
    simp
  exact ⟨h1, h2, by simp [applyOp, h1, orKeep], by simp [applyOp, h2, orKeep]⟩

/-- A bank account used by the C5 witness. -/
def acctW5 : AccountRow :=
  { id := 5, user_id := 1, name := some "Acc", bank_institution := none,
    institution_name := none, currency := "NIO", initial_balance := 0,
    deleted := false }

/-- A stored transfer row used by the C5 witness (target of the update). -/
def trW5 : TransferRow :=
  { id := 9, user_id := 1, amount := 10, currency := "NIO",
    from_type := .cash, from_account_id := none, to_type := .cash,
    to_account_id := none, date := "2024-01-02", deleted := false }

/-- The store for the C5 witness. -/
def dbW5 : Db := { incomes := [], expenses := [], transfers := [trW5], accounts := [acctW5] }

/-- The same-account payload for the C5 witness. -/
def plW5 : TransferPayload :=
  { amount := 5, currency := "NIO", date := "2024-01-03", source_type := .bank,
    source_account_id := some 5, destination_type := .bank,
    destination_account_id := some 5 }

/-- Witness for C5 at a concrete store and payload. -/
theorem transfer_same_account_rejected_witness :
    transferCreateH dbW5 1 77 plW5 = .error .sameAccount ∧
    transferPutH dbW5 1 9 plW5 = .error .sameAccount ∧
    applyOp 1 dbW5 (.transferCreate 77 plW5) = dbW5 ∧
    applyOp 1 dbW5 (.transferPut 9 plW5) = dbW5 :=
  transfer_same_account_rejected dbW5 1 77 9 5 plW5 acctW5 trW5
    (by decide) (by decide) rfl rfl rfl rfl (by decide) (by decide)

/-! ### C4: the persisted currency of a movement create -/

/-- The payload of the C4 counterexample: a cash expense whose client
currency "EUR" is not one of the two supported currencies. -/
def plC4 : MovPayload :=
  { amount := 0, currency := some "EUR", source := .cash, account_id := none,
    date := "2024-01-01" }

/-- Counterexample to C4 as stated: an accepted cash expense create with
the unrecognised client currency "EUR" persists the currency "USD" —
`normalizeCurrency(payload.currency) ?? 'USD'` — not the local currency
"NIO" the claim names as the default. -/
theorem movement_create_currency_counterexample :
    (expenseCreateH { incomes := [], expenses := [], transfers := [], accounts := [] }
        1 1 plC4).map (fun d => d.expenses.map (·.currency)) = .ok ["USD"] ∧
    ("USD" : String) ≠ "NIO" := by
  have hb : computeAccountBalance
      { incomes := [], expenses := [], transfers := [], accounts := [] }
      1 .cash none (some "USD") none = 0 := by
    show (0 : ℚ) + 0 + 0 - 0 - 0 = 0
    norm_num
  refine ⟨?_, by decide⟩
  unfold expenseCreateH
  rw [show parseCurrencyField "USD" plC4.currency = Except.ok "EUR" from rfl]
  simp only []
  rw [if_neg (show ¬ plC4.amount < 0 by decide)]
  rw [show resolveCreateAccount
      { incomes := [], expenses := [], transfers := [], accounts := [] }
      1 plC4.source plC4.account_id "EUR" = Except.ok (none, none) from rfl]
  simp only []
  rw [show movCreateCurrency none "EUR" = "USD" from rfl]
  rw [show plC4.source = SrcType.cash from rfl]
  rw [hb]
  rw [if_neg (show ¬ (0 : ℚ) < plC4.amount by decide)]
  rfl

/-- Inversion of `resolveCreateAccount`: an accepted resolution is either
the cash case (both components null) or the bank case (id present,
account resolved, currency check passed). -/
theorem resolveCreateAccount_inv (db : Db) (u : Nat) (source : SrcType)
    (account_id : Option Nat) (cur : String) (acct : Option AccountRow)
    (aid : Option Nat)
    (h : resolveCreateAccount db u source account_id cur = .ok (acct, aid)) :
    (source = .cash ∧ acct = none ∧ aid = none) ∨
    (∃ i a, source = .bank ∧ account_id = some i ∧
      loadUserAccount db u (some i) = some a ∧ acct = some a ∧ aid = some i ∧
      ensureAccountCurrency (some a) (some cur) = true) := by
  unfold resolveCreateAccount at h
  cases source with
  | cash =>
    injection h with h'
    injection h' with h1 h2
    exact Or.inl ⟨rfl, h1.symm, h2.symm⟩
  | bank =>
    revert h
    cases account_id with
    | none => intro h; simp at h
    | some i =>
      intro h
      simp only [] at h
      cases hload : loadUserAccount db u (some i) with
      | none => rw [hload] at h; simp at h
      | some a =>
        rw [hload] at h
        simp only [] at h
        by_cases hens : ensureAccountCurrency (some a) (some cur) = true
        · rw [if_pos hens] at h
          injection h with h'
          injection h' with h1 h2
          exact Or.inr ⟨i, a, rfl, rfl, hload, h1.symm, h2.symm, hens⟩
        · rw [if_neg hens] at h
          simp at h

/-- Inversion of `resolveTransferSide`. -/
theorem resolveTransferSide_inv (db : Db) (u : Nat) (side : SrcType)
    (account_id : Option Nat) (acct : Option AccountRow) (aid : Option Nat)
    (h : resolveTransferSide db u side account_id = .ok (acct, aid)) :
    (side = .cash ∧ acct = none ∧ aid = none) ∨
    (∃ i a, side = .bank ∧ account_id = some i ∧
      loadUserAccount db u (some i) = some a ∧ acct = some a ∧ aid = some i) := by
  unfold resolveTransferSide at h
  cases side with
  | cash =>
    injection h with h'
    injection h' with h1 h2
    exact Or.inl ⟨rfl, h1.symm, h2.symm⟩
  | bank =>
    revert h
    cases account_id with
    | none => intro h; simp at h
    | some i =>
      intro h
      simp only [] at h
      cases hload : loadUserAccount db u (some i) with
      | none => rw [hload] at h; simp at h
      | some a =>
        rw [hload] at h
        simp only [] at h
        injection h with h'
        injection h' with h1 h2
        exact Or.inr ⟨i, a, rfl, rfl, hload, h1.symm, h2.symm⟩

theorem normalizeCurrency_nio : normalizeCurrency (some "NIO") = some "NIO" := by decide

theorem normalizeCurrency_usd : normalizeCurrency (some "USD") = some "USD" := by decide

/-- The transfer currency default always lands on one of the two supported
currencies. -/
theorem normalizeCurrency_getD_mem (o : Option String) :
    (normalizeCurrency o).getD "NIO" = "NIO" ∨ (normalizeCurrency o).getD "NIO" = "USD" := by
  cases o with
  | none => exact Or.inl rfl
  | some v =>
    by_cases hc : jsUpper (jsTrim v) = "NIO" ∨ jsUpper (jsTrim v) = "USD"
    · have hn : normalizeCurrency (some v) = some (jsUpper (jsTrim v)) := by
        simp only [normalizeCurrency]
        rw [if_pos hc]
      rw [hn]
      simpa using hc
    · have hn : normalizeCurrency (some v) = none := by
        simp only [normalizeCurrency]
        rw [if_neg hc]
      rw [hn]
      exact Or.inl rfl

/-- When the account-currency check passes against a transfer's forced
currency, that currency is the account's configured currency. -/
theorem ensure_nc_forced (a : AccountRow) (o : Option String)
    (h : ensureAccountCurrency (some a) (some ((normalizeCurrency o).getD "NIO")) = true) :
    (normalizeCurrency o).getD "NIO" = a.currency := by
  rcases normalizeCurrency_getD_mem o with hx | hx <;> rw [hx] at h ⊢ <;>
    unfold ensureAccountCurrency at h
  · rw [normalizeCurrency_nio] at h
    exact Option.some.inj (beq_iff_eq.mp h)
  · rw [normalizeCurrency_usd] at h
    exact Option.some.inj (beq_iff_eq.mp h)

theorem transferCurrency_src (a : AccountRow) (dst : Option AccountRow) (cur : String) :
    transferCurrency (some a) dst cur = (normalizeCurrency (some a.currency)).getD "NIO" := by
  simp [transferCurrency, Option.orElse]

theorem transferCurrency_dst (a : AccountRow) (cur : String) :
    transferCurrency none (some a) cur = (normalizeCurrency (some a.currency)).getD "NIO" := by
  simp [transferCurrency, Option.orElse]

theorem transferCurrency_none (cur : String) :
    transferCurrency none none cur = (normalizeCurrency (some cur)).getD "NIO" := by
  simp [transferCurrency, Option.orElse]

/-- C4 amended: for every accepted movement create, the persisted row's
currency is the resolved bank account's configured currency whenever a
bank account is referenced (for transfers, whichever side resolves one);
otherwise it is the zod-parsed client currency normalised by
`normalizeCurrency`, defaulting to "USD" for income and expense creates
and to "NIO" for transfer creates when the input is missing or
unrecognised. -/
theorem movement_create_persisted_currency :
    (∀ (db : Db) (u nid : Nat) (p : MovPayload) (db' : Db),
       incomeCreateH db u nid p = .ok db' →
       ∃ r, db'.incomes = r :: db.incomes ∧
         ((∃ a, p.source = .bank ∧ loadUserAccount db u p.account_id = some a ∧
             r.currency = a.currency) ∨
          (p.source = .cash ∧ ∃ cur, parseCurrencyField "USD" p.currency = .ok cur ∧
             r.currency = (normalizeCurrency (some cur)).getD "USD"))) ∧
    (∀ (db : Db) (u nid : Nat) (p : MovPayload) (db' : Db),
       expenseCreateH db u nid p = .ok db' →
       ∃ r, db'.expenses = r :: db.expenses ∧
         ((∃ a, p.source = .bank ∧ loadUserAccount db u p.account_id = some a ∧
             r.currency = a.currency) ∨
          (p.source = .cash ∧ ∃ cur, parseCurrencyField "USD" p.currency = .ok cur ∧
             r.currency = (normalizeCurrency (some cur)).getD "USD"))) ∧
    (∀ (db : Db) (u nid : Nat) (p : TransferPayload) (db' : Db),
       transferCreateH db u nid p = .ok db' →
       ∃ r srcA dstA,
         db'.transfers = r :: db.transfers ∧
         (p.source_type = .bank → ∃ i a, p.source_account_id = some i ∧
           loadUserAccount db u (some i) = some a ∧ srcA = some a) ∧
         (p.source_type = .cash → srcA = none) ∧
         (p.destination_type = .bank → ∃ i a, p.destination_account_id = some i ∧
           loadUserAccount db u (some i) = some a ∧ dstA = some a) ∧
         (p.destination_type = .cash → dstA = none) ∧
         (∀ a, srcA = some a → r.currency = a.currency) ∧
         (srcA = none → ∀ a, dstA = some a → r.currency = a.currency) ∧
         (srcA = none → dstA = none →
           r.currency = (normalizeCurrency (some (jsTrim p.currency))).getD "NIO")) := by
  refine ⟨?_, ?_, ?_⟩
  · intro db u nid p db' h
    unfold incomeCreateH at h
    cases hcur : parseCurrencyField "USD" p.currency with
    | error e => rw [hcur] at h; simp at h
    | ok cur =>
      rw [hcur] at h
      simp only [] at h
      by_cases hamt : p.amount < 0
      · rw [if_pos hamt] at h; simp at h
      · rw [if_neg hamt] at h
        cases hres : resolveCreateAccount db u p.source p.account_id cur with
        | error e => rw [hres] at h; simp at h
        | ok pr =>
          obtain ⟨acct, aid⟩ := pr
          rw [hres] at h
          simp only [] at h
          injection h with hdb
          rcases resolveCreateAccount_inv db u p.source p.account_id cur acct aid hres with
            ⟨hsrc, rfl, rfl⟩ | ⟨i, a, hsrc, haid, hload, rfl, rfl, hens⟩
          · exact ⟨_, by rw [← hdb], Or.inr ⟨hsrc, cur, rfl, rfl⟩⟩
          · exact ⟨_, by rw [← hdb], Or.inl ⟨a, hsrc, by rw [haid]; exact hload, rfl⟩⟩
  · intro db u nid p db' h
    unfold expenseCreateH at h
    cases hcur : parseCurrencyField "USD" p.currency with
    | error e => rw [hcur] at h; simp at h
    | ok cur =>
      rw [hcur] at h
      simp only [] at h
      by_cases hamt : p.amount < 0
      · rw [if_pos hamt] at h; simp at h
      · rw [if_neg hamt] at h
        cases hres : resolveCreateAccount db u p.source p.account_id cur with
        | error e => rw [hres] at h; simp at h
        | ok pr =>
          obtain ⟨acct, aid⟩ := pr
          rw [hres] at h
          simp only [] at h
          by_cases hbal : computeAccountBalance db u p.source aid
              (some (movCreateCurrency acct cur)) acct < p.amount
          · rw [if_pos hbal] at h; simp at h
          · rw [if_neg hbal] at h
            injection h with hdb
            rcases resolveCreateAccount_inv db u p.source p.account_id cur acct aid hres with
              ⟨hsrc, rfl, rfl⟩ | ⟨i, a, hsrc, haid, hload, rfl, rfl, hens⟩
            · exact ⟨_, by rw [← hdb], Or.inr ⟨hsrc, cur, rfl, rfl⟩⟩
            · exact ⟨_, by rw [← hdb], Or.inl ⟨a, hsrc, by rw [haid]; exact hload, rfl⟩⟩
  · intro db u nid p db' h
    unfold transferCreateH at h
    by_cases hamt : ¬ (0 < p.amount)
    · rw [if_pos hamt] at h; simp at h
    · rw [if_neg hamt] at h
      cases hcur : parseCurrencyField "NIO" (some p.currency) with
      | error e => rw [hcur] at h; simp at h
      | ok cur =>
        rw [hcur] at h
        simp only [] at h
        have hcur' : cur = jsTrim p.currency := by
          unfold parseCurrencyField at hcur
          simp only [] at hcur
          split at hcur
          · injection hcur with h0
            exact h0.symm
          · simp at hcur
        cases hsrc : resolveTransferSide db u p.source_type p.source_account_id with
        | error e => rw [hsrc] at h; simp at h
        | ok prs =>
          obtain ⟨srcA, srcId⟩ := prs
          rw [hsrc] at h
          simp only [] at h
          cases hdst : resolveTransferSide db u p.destination_type p.destination_account_id with
          | error e => rw [hdst] at h; simp at h
          | ok prd =>
            obtain ⟨dstA, dstId⟩ := prd
            rw [hdst] at h
            simp only [] at h
            by_cases hsame : p.source_type = SrcType.bank ∧ p.destination_type = SrcType.bank ∧ srcId = dstId
            · rw [if_pos hsame] at h; simp at h
            · rw [if_neg hsame] at h
              by_cases hens1 : ¬ ensureAccountCurrency srcA (some (transferCurrency srcA dstA cur))
              · rw [if_pos hens1] at h; simp at h
              · rw [if_neg hens1] at h
                by_cases hens2 : ¬ ensureAccountCurrency dstA (some (transferCurrency srcA dstA cur))
                · rw [if_pos hens2] at h; simp at h
                · rw [if_neg hens2] at h
                  by_cases hbal : computeAccountBalance db u p.source_type
                      (match p.source_type with | .bank => srcId | .cash => none)
                      (some (transferCurrency srcA dstA cur)) srcA < p.amount
                  · rw [if_pos hbal] at h; simp at h
                  · rw [if_neg hbal] at h
                    injection h with hdb
                    have hens1' : ensureAccountCurrency srcA (some (transferCurrency srcA dstA cur)) = true :=
                      not_not.mp hens1
                    have hens2' : ensureAccountCurrency dstA (some (transferCurrency srcA dstA cur)) = true :=
                      not_not.mp hens2
                    refine ⟨_, srcA, dstA, by rw [← hdb], ?_, ?_, ?_, ?_, ?_, ?_, ?_⟩
                    · intro hbank
                      rcases resolveTransferSide_inv db u p.source_type p.source_account_id srcA srcId hsrc with
                        ⟨hside, _, _⟩ | ⟨i, a, hside, haid, hload, ha, _⟩
                      · rw [hbank] at hside; exact absurd hside (by simp)
                      · exact ⟨i, a, haid, hload, ha⟩
                    · intro hcash
                      rcases resolveTransferSide_inv db u p.source_type p.source_account_id srcA srcId hsrc with
                        ⟨hside, ha, _⟩ | ⟨i, a, hside, haid, hload, ha, _⟩
                      · exact ha
                      · rw [hcash] at hside; exact absurd hside (by simp)
                    · intro hbank
                      rcases resolveTransferSide_inv db u p.destination_type p.destination_account_id dstA dstId hdst with
                        ⟨hside, _, _⟩ | ⟨i, a, hside, haid, hload, ha, _⟩
                      · rw [hbank] at hside; exact absurd hside (by simp)
                      · exact ⟨i, a, haid, hload, ha⟩
                    · intro hcash
                      rcases resolveTransferSide_inv db u p.destination_type p.destination_account_id dstA dstId hdst with
                        ⟨hside, ha, _⟩ | ⟨i, a, hside, haid, hload, ha, _⟩
                      · exact ha
                      · rw [hcash] at hside; exact absurd hside (by simp)
                    · intro a ha
                      subst ha
                      show transferCurrency (some a) dstA cur = a.currency
                      rw [transferCurrency_src]
                      apply ensure_nc_forced
                      rw [← transferCurrency_src a dstA cur]
                      simpa [ensureAccountCurrency] using hens1'
                    · intro hnone a ha
                      subst hnone; subst ha
                      show transferCurrency none (some a) cur = a.currency
                      rw [transferCurrency_dst]
                      apply ensure_nc_forced
                      rw [← transferCurrency_dst a cur]
                      simpa [ensureAccountCurrency] using hens2'
                    · intro h1 h2
                      subst h1; subst h2
                      show transferCurrency none none cur = _
                      rw [transferCurrency_none, hcur']

/-- The store for the C4 witness (no rows at all). -/
def dbW4 : Db := { incomes := [], expenses := [], transfers := [], accounts := [] }

/-- The payload of the C4 witness: a cash income with client currency
" usd " (trimmed and upper-cased to USD). -/
def plW4 : MovPayload :=
  { amount := 5, currency := some " usd ", source := .cash, account_id := none,
    date := "2024-02-02" }

/-- The row persisted by the C4 witness create. -/
def rowW4 : IncomeRow :=
  { id := 1, user_id := 1, amount := 5, currency := "USD", source := .cash,
    account_id := none, date := "2024-02-02", deleted := false }

/-- The store after the C4 witness create. -/
def dbW4res : Db :=
  { incomes := [rowW4], expenses := [], transfers := [], accounts := [] }

/-- Witness for C4 at a concrete accepted cash income create. -/
theorem movement_create_persisted_currency_witness :
    ∃ r, dbW4res.incomes = r :: dbW4.incomes ∧
      ((∃ a, plW4.source = .bank ∧ loadUserAccount dbW4 1 plW4.account_id = some a ∧
          r.currency = a.currency) ∨
       (plW4.source = .cash ∧ ∃ cur, parseCurrencyField "USD" plW4.currency = .ok cur ∧
          r.currency = (normalizeCurrency (some cur)).getD "USD")) :=
  movement_create_persisted_currency.1 dbW4 1 1 plW4 dbW4res rfl

/-! ### Inversion lemmas for the create handlers (shared helpers) -/

/-- Inversion of an accepted income create. -/
theorem incomeCreateH_inv (db : Db) (u nid : Nat) (p : MovPayload) (db' : Db)
    (h : incomeCreateH db u nid p = .ok db') :
    ∃ cur acct aid,
      parseCurrencyField "USD" p.currency = .ok cur ∧
      ¬ p.amount < 0 ∧
      resolveCreateAccount db u p.source p.account_id cur = .ok (acct, aid) ∧
      db' = { db with incomes :=
        { id := nid, user_id := u, amount := p.amount,
          currency := movCreateCurrency acct cur, source := p.source,
          account_id := aid, date := p.date, deleted := false } :: db.incomes } := by
  unfold incomeCreateH at h
  cases hcur : parseCurrencyField "USD" p.currency with
  | error e => rw [hcur] at h; simp at h
  | ok cur =>
    rw [hcur] at h
    simp only [] at h
    by_cases hamt : p.amount < 0
    · rw [if_pos hamt] at h; simp at h
    · rw [if_neg hamt] at h
      cases hres : resolveCreateAccount db u p.source p.account_id cur with
      | error e => rw [hres] at h; simp at h
      | ok pr =>
        obtain ⟨acct, aid⟩ := pr
        rw [hres] at h
        simp only [] at h
        injection h with hdb
        exact ⟨cur, acct, aid, rfl, hamt, hres, hdb.symm⟩

/-- Inversion of an accepted expense create: additionally records that the
balance gate passed at the persisted currency. -/
theorem expenseCreateH_inv (db : Db) (u nid : Nat) (p : MovPayload) (db' : Db)
    (h : expenseCreateH db u nid p = .ok db') :
    ∃ cur acct aid,
      parseCurrencyField "USD" p.currency = .ok cur ∧
      ¬ p.amount < 0 ∧
      resolveCreateAccount db u p.source p.account_id cur = .ok (acct, aid) ∧
      ¬ computeAccountBalance db u p.source aid
          (some (movCreateCurrency acct cur)) acct < p.amount ∧
      db' = { db with expenses :=
        { id := nid, user_id := u, amount := p.amount,
          currency := movCreateCurrency acct cur, source := p.source,
          account_id := aid, date := p.date, deleted := false } :: db.expenses } := by
  unfold expenseCreateH at h
  cases hcur : parseCurrencyField "USD" p.currency with
  | error e => rw [hcur] at h; simp at h
  | ok cur =>
    rw [hcur] at h
    simp only [] at h
    by_cases hamt : p.amount < 0
    · rw [if_pos hamt] at h; simp at h
    · rw [if_neg hamt] at h
      cases hres : resolveCreateAccount db u p.source p.account_id cur with
      | error e => rw [hres] at h; simp at h
      | ok pr =>
        obtain ⟨acct, aid⟩ := pr
        rw [hres] at h
        simp only [] at h
        by_cases hbal : computeAccountBalance db u p.source aid
            (some (movCreateCurrency acct cur)) acct < p.amount
        · rw [if_pos hbal] at h; simp at h
        · rw [if_neg hbal] at h
          injection h with hdb
          exact ⟨cur, acct, aid, rfl, hamt, hres, hbal, hdb.symm⟩

/-- Inversion of an accepted transfer create. -/
theorem transferCreateH_inv (db : Db) (u nid : Nat) (p : TransferPayload) (db' : Db)
    (h : transferCreateH db u nid p = .ok db') :
    ∃ cur srcA srcId dstA dstId,
      0 < p.amount ∧
      parseCurrencyField "NIO" (some p.currency) = .ok cur ∧
      resolveTransferSide db u p.source_type p.source_account_id = .ok (srcA, srcId) ∧
      resolveTransferSide db u p.destination_type p.destination_account_id = .ok (dstA, dstId) ∧
      ensureAccountCurrency srcA (some (transferCurrency srcA dstA cur)) = true ∧
      ensureAccountCurrency dstA (some (transferCurrency srcA dstA cur)) = true ∧
      ¬ computeAccountBalance db u p.source_type
          (match p.source_type with | .bank => srcId | .cash => none)
          (some (transferCurrency srcA dstA cur)) srcA < p.amount ∧
      db' = { db with transfers :=
        { id := nid, user_id := u, amount := p.amount,
          currency := transferCurrency srcA dstA cur,
          from_type := p.source_type, from_account_id := srcId,
          to_type := p.destination_type, to_account_id := dstId,
          date := p.date, deleted := false } :: db.transfers } := by
  unfold transferCreateH at h
  by_cases hamt : ¬ (0 < p.amount)
  · rw [if_pos hamt] at h; simp at h
  · rw [if_neg hamt] at h
    cases hcur : parseCurrencyField "NIO" (some p.currency) with
    | error e => rw [hcur] at h; simp at h
    | ok cur =>
      rw [hcur] at h
      simp only [] at h
      cases hsrc : resolveTransferSide db u p.source_type p.source_account_id with
      | error e => rw [hsrc] at h; simp at h
      | ok prs =>
        obtain ⟨srcA, srcId⟩ := prs
        rw [hsrc] at h
        simp only [] at h
        cases hdst : resolveTransferSide db u p.destination_type p.destination_account_id with
        | error e => rw [hdst] at h; simp at h
        | ok prd =>
          obtain ⟨dstA, dstId⟩ := prd
          rw [hdst] at h
          simp only [] at h
          by_cases hsame : p.source_type = SrcType.bank ∧ p.destination_type = SrcType.bank ∧ srcId = dstId
          · rw [if_pos hsame] at h; simp at h
          · rw [if_neg hsame] at h
            by_cases hens1 : ¬ ensureAccountCurrency srcA (some (transferCurrency srcA dstA cur))
            · rw [if_pos hens1] at h; simp at h
            · rw [if_neg hens1] at h
              by_cases hens2 : ¬ ensureAccountCurrency dstA (some (transferCurrency srcA dstA cur))
              · rw [if_pos hens2] at h; simp at h
              · rw [if_neg hens2] at h
                by_cases hbal : computeAccountBalance db u p.source_type
                    (match p.source_type with | .bank => srcId | .cash => none)
                    (some (transferCurrency srcA dstA cur)) srcA < p.amount
                · rw [if_pos hbal] at h; simp at h
                · rw [if_neg hbal] at h
                  injection h with hdb
                  exact ⟨cur, srcA, srcId, dstA, dstId, not_not.mp hamt, rfl, rfl, rfl,
                    not_not.mp hens1, not_not.mp hens2, hbal, hdb.symm⟩

/-! ### Inversion lemmas for the update handlers (shared helpers) -/

/-- Inversion of an accepted income update: the store is the income table
with every matching live row rewritten, and a cash next-source forces a
null account reference. -/
theorem incomePutH_inv (db : Db) (u movId : Nat) (p : MovPutPayload) (db' : Db)
    (h : incomePutH db u movId p = .ok db') :
    ∃ nc ns na, (ns = SrcType.cash → na = none) ∧
      db' = { db with incomes := db.incomes.map (fun r =>
        if r.id == movId && r.user_id == u && !r.deleted
        then applyIncomeUpdate p nc ns na r else r) } := by
  unfold incomePutH at h
  by_cases hne : ¬ p.nonempty
  · rw [if_pos hne] at h; simp at h
  · rw [if_neg hne] at h
    cases hcur : parseCurrencyOpt p.currency with
    | error e => rw [hcur] at h; simp at h
    | ok pcur =>
      rw [hcur] at h
      simp only [] at h
      by_cases hamt : (p.amount.getD 0) < 0
      · rw [if_pos hamt] at h; simp at h
      · rw [if_neg hamt] at h
        cases hfind : db.incomes.find? (fun r => r.id == movId && r.user_id == u && !r.deleted) with
        | none => rw [hfind] at h; simp at h
        | some current =>
          rw [hfind] at h
          simp only [] at h
          cases hns : p.source.getD current.source with
          | bank =>
            rw [hns] at h
            simp only [] at h
            cases hcand : (p.account_id).orElse (fun _ => current.account_id) with
            | none => rw [hcand] at h; simp at h
            | some cand =>
              rw [hcand] at h
              simp only [] at h
              cases hload : loadUserAccount db u (some cand) with
              | none => rw [hload] at h; simp at h
              | some acct =>
                rw [hload] at h
                simp only [] at h
                by_cases hens : ¬ ensureAccountCurrency (some acct) (some acct.currency)
                · rw [if_pos hens] at h; simp at h
                · rw [if_neg hens] at h
                  injection h with hdb
                  exact ⟨acct.currency, .bank, some acct.id, by simp, hdb.symm⟩
          | cash =>
            rw [hns] at h
            simp only [] at h
            injection h with hdb
            exact ⟨_, .cash, none, fun _ => rfl, hdb.symm⟩

/-- Inversion of an accepted expense update. -/
theorem expensePutH_inv (db : Db) (u movId : Nat) (p : MovPutPayload) (db' : Db)
    (h : expensePutH db u movId p = .ok db') :
    ∃ amt nc ns na, (ns = SrcType.cash → na = none) ∧
      db' = { db with expenses := db.expenses.map (fun r =>
        if r.id == movId && r.user_id == u && !r.deleted
        then applyExpenseUpdate amt nc ns na p r else r) } := by
  unfold expensePutH at h
  by_cases hne : ¬ p.nonempty
  · rw [if_pos hne] at h; simp at h
  · rw [if_neg hne] at h
    cases hcur : parseCurrencyOpt p.currency with
    | error e => rw [hcur] at h; simp at h
    | ok pcur =>
      rw [hcur] at h
      simp only [] at h
      by_cases hamt : (p.amount.getD 0) < 0
      · rw [if_pos hamt] at h; simp at h
      · rw [if_neg hamt] at h
        cases hfind : db.expenses.find? (fun r => r.id == movId && r.user_id == u && !r.deleted) with
        | none => rw [hfind] at h; simp at h
        | some current =>
          rw [hfind] at h
          simp only [] at h
          cases hres : resolvePutAccount db u (p.source.getD current.source)
              p.account_id current.account_id with
          | error e => rw [hres] at h; simp at h
          | ok pr =>
            obtain ⟨acct, nextAid⟩ := pr
            rw [hres] at h
            simp only [] at h
            cases acct with
            | some a =>
              simp only [] at h
              by_cases hens : ¬ ensureAccountCurrency (some a) (some a.currency)
              · rw [if_pos hens] at h; simp at h
              · rw [if_neg hens] at h
                split at h
                all_goals split at h
                · simp at h
                · injection h with hdb
                  refine ⟨_, _, p.source.getD current.source,
                    (match p.source.getD current.source with
                     | SrcType.bank => nextAid
                     | SrcType.cash => none), ?_, hdb.symm⟩
                  intro hc
                  rw [hc]
                · simp at h
                · injection h with hdb
                  refine ⟨_, _, p.source.getD current.source,
                    (match p.source.getD current.source with
                     | SrcType.bank => nextAid
                     | SrcType.cash => none), ?_, hdb.symm⟩
                  intro hc
                  rw [hc]
            | none =>
              simp only [] at h
              by_cases hens : ¬ ensureAccountCurrency none
                  (some ((normalizeCurrency (pcur.orElse (fun _ => some current.currency))).getD "NIO"))
              · rw [if_pos hens] at h; simp at h
              · rw [if_neg hens] at h
                split at h
                all_goals split at h
                · simp at h
                · injection h with hdb
                  refine ⟨_, _, p.source.getD current.source,
                    (match p.source.getD current.source with
                     | SrcType.bank => nextAid
                     | SrcType.cash => none), ?_, hdb.symm⟩
                  intro hc
                  rw [hc]
                · simp at h
                · injection h with hdb
                  refine ⟨_, _, p.source.getD current.source,
                    (match p.source.getD current.source with
                     | SrcType.bank => nextAid
                     | SrcType.cash => none), ?_, hdb.symm⟩
                  intro hc
                  rw [hc]

/-- Inversion of an accepted transfer update. -/
theorem transferPutH_inv (db : Db) (u movId : Nat) (p : TransferPayload) (db' : Db)
    (h : transferPutH db u movId p = .ok db') :
    ∃ nc srcId dstId,
      (p.source_type = SrcType.cash → srcId = none) ∧
      (p.destination_type = SrcType.cash → dstId = none) ∧
      db' = { db with transfers := db.transfers.map (fun r =>
        if r.id == movId && r.user_id == u && !r.deleted
        then applyTransferUpdate p nc srcId dstId r else r) } := by
  unfold transferPutH at h
  by_cases hamt : ¬ (0 < p.amount)
  · rw [if_pos hamt] at h; simp at h
  · rw [if_neg hamt] at h
    cases hcur : parseCurrencyField "NIO" (some p.currency) with
    | error e => rw [hcur] at h; simp at h
    | ok cur =>
      rw [hcur] at h
      simp only [] at h
      cases hfind : db.transfers.find? (fun r => r.id == movId && r.user_id == u && !r.deleted) with
      | none => rw [hfind] at h; simp at h
      | some current =>
        rw [hfind] at h
        simp only [] at h
        cases hsrc : resolveTransferSide db u p.source_type p.source_account_id with
        | error e => rw [hsrc] at h; simp at h
        | ok prs =>
          obtain ⟨srcA, srcId⟩ := prs
          rw [hsrc] at h
          simp only [] at h
          cases hdst : resolveTransferSide db u p.destination_type p.destination_account_id with
          | error e => rw [hdst] at h; simp at h
          | ok prd =>
            obtain ⟨dstA, dstId⟩ := prd
            rw [hdst] at h
            simp only [] at h
            by_cases hsame : p.source_type = SrcType.bank ∧ p.destination_type = SrcType.bank ∧ srcId = dstId
            · rw [if_pos hsame] at h; simp at h
            · rw [if_neg hsame] at h
              by_cases hens1 : ¬ ensureAccountCurrency srcA (some (transferCurrency srcA dstA cur))
              · rw [if_pos hens1] at h; simp at h
              · rw [if_neg hens1] at h
                by_cases hens2 : ¬ ensureAccountCurrency dstA (some (transferCurrency srcA dstA cur))
                · rw [if_pos hens2] at h; simp at h
                · rw [if_neg hens2] at h
                  have hcash1 : p.source_type = SrcType.cash → srcId = none := by
                    intro hc
                    rcases resolveTransferSide_inv db u p.source_type p.source_account_id srcA srcId hsrc with
                      ⟨_, _, hid⟩ | ⟨i, a, hside, _, _, _, _⟩
                    · exact hid
                    · rw [hc] at hside; exact absurd hside (by simp)
                  have hcash2 : p.destination_type = SrcType.cash → dstId = none := by
                    intro hc
                    rcases resolveTransferSide_inv db u p.destination_type p.destination_account_id dstA dstId hdst with
                      ⟨_, _, hid⟩ | ⟨i, a, hside, _, _, _, _⟩
                    · exact hid
                    · rw [hc] at hside; exact absurd hside (by simp)
                  split at h
                  all_goals split at h
                  · simp at h
                  · injection h with hdb
                    exact ⟨transferCurrency srcA dstA cur, srcId, dstId, hcash1, hcash2, hdb.symm⟩
                  · simp at h
                  · injection h with hdb
                    exact ⟨transferCurrency srcA dstA cur, srcId, dstId, hcash1, hcash2, hdb.symm⟩

/-! ### C10: cash-side movements never carry a bank-account reference -/

/-- Membership in a conditionally-rewritten table: every row of the result
is either an untouched row or the rewrite of a row of the original. -/
theorem mem_map_ite {α : Type} (P : α → Bool) (f : α → α) (l : List α) (x : α)
    (hx : x ∈ l.map (fun r => if P r then f r else r)) :
    ∃ r, r ∈ l ∧ (x = r ∨ x = f r) := by
  rcases List.mem_map.mp hx with ⟨r, hr, hfr⟩
  by_cases hp : P r
  · exact ⟨r, hr, Or.inr (by rw [← hfr, if_pos hp])⟩
  · exact ⟨r, hr, Or.inl (by rw [← hfr, if_neg hp])⟩

/-- The invariant of claim C10: a movement row whose side is cash carries a
null account reference (each transfer side counted separately). -/
def cashNullInv (db : Db) : Prop :=
  (∀ r ∈ db.incomes, r.source = SrcType.cash → r.account_id = none) ∧
  (∀ r ∈ db.expenses, r.source = SrcType.cash → r.account_id = none) ∧
  (∀ r ∈ db.transfers,
    (r.from_type = SrcType.cash → r.from_account_id = none) ∧
    (r.to_type = SrcType.cash → r.to_account_id = none))

/-- C10: every create, update and delete path of the three movement routes
preserves the cash-null invariant — each handler forces the account-id
field(s) to null whenever the corresponding side is cash, so a persisted
cash-side movement never references a bank account. -/
theorem cash_movements_have_no_account (u : Nat) (db : Db) (op : Op)
    (h : cashNullInv db) : cashNullInv (applyOp u db op) := by
  obtain ⟨hI, hE, hT⟩ := h
  cases op with
  | incomeCreate nid p =>
    show cashNullInv (orKeep db (incomeCreateH db u nid p))
    cases hH : incomeCreateH db u nid p with
    | error e => exact ⟨hI, hE, hT⟩
    | ok db' =>
      obtain ⟨cur, acct, aid, hcur, hamt, hres, hdb⟩ := incomeCreateH_inv db u nid p db' hH
      subst hdb
      refine ⟨?_, hE, hT⟩
      intro r hr hcash
      rcases List.mem_cons.mp hr with rfl | hmem
      · have hcash' : p.source = SrcType.cash := hcash
        show aid = none
        rcases resolveCreateAccount_inv db u p.source p.account_id cur acct aid hres with
          ⟨_, _, rfl⟩ | ⟨i, a, hbank, _, _, _, _, _⟩
        · rfl
        · rw [hbank] at hcash'; exact absurd hcash' (by simp)
      · exact hI r hmem hcash
  | expenseCreate nid p =>
    show cashNullInv (orKeep db (expenseCreateH db u nid p))
    cases hH : expenseCreateH db u nid p with
    | error e => exact ⟨hI, hE, hT⟩
    | ok db' =>
      obtain ⟨cur, acct, aid, hcur, hamt, hres, hbal, hdb⟩ := expenseCreateH_inv db u nid p db' hH
      subst hdb
      refine ⟨hI, ?_, hT⟩
      intro r hr hcash
      rcases List.mem_cons.mp hr with rfl | hmem
      · have hcash' : p.source = SrcType.cash := hcash
        show aid = none
        rcases resolveCreateAccount_inv db u p.source p.account_id cur acct aid hres with
          ⟨_, _, rfl⟩ | ⟨i, a, hbank, _, _, _, _, _⟩
        · rfl
        · rw [hbank] at hcash'; exact absurd hcash' (by simp)
      · exact hE r hmem hcash
  | transferCreate nid p =>
    show cashNullInv (orKeep db (transferCreateH db u nid p))
    cases hH : transferCreateH db u nid p with
    | error e => exact ⟨hI, hE, hT⟩
    | ok db' =>
      obtain ⟨cur, srcA, srcId, dstA, dstId, hamt, hcur, hsrc, hdst, he1, he2, hbal, hdb⟩ :=
        transferCreateH_inv db u nid p db' hH
      subst hdb
      refine ⟨hI, hE, ?_⟩
      intro r hr
      rcases List.mem_cons.mp hr with rfl | hmem
      · constructor
        · intro hcash
          have hcash' : p.source_type = SrcType.cash := hcash
          show srcId = none
          rcases resolveTransferSide_inv db u p.source_type p.source_account_id srcA srcId hsrc with
            ⟨_, _, rfl⟩ | ⟨i, a, hbank, _, _, _, _⟩
          · rfl
          · rw [hbank] at hcash'; exact absurd hcash' (by simp)
        · intro hcash
          have hcash' : p.destination_type = SrcType.cash := hcash
          show dstId = none
          rcases resolveTransferSide_inv db u p.destination_type p.destination_account_id dstA dstId hdst with
            ⟨_, _, rfl⟩ | ⟨i, a, hbank, _, _, _, _⟩
          · rfl
          · rw [hbank] at hcash'; exact absurd hcash' (by simp)
      · exact hT r hmem
  | incomePut movId p =>
    show cashNullInv (orKeep db (incomePutH db u movId p))
    cases hH : incomePutH db u movId p with
    | error e => exact ⟨hI, hE, hT⟩
    | ok db' =>
      obtain ⟨nc, ns, na, hcash0, hdb⟩ := incomePutH_inv db u movId p db' hH
      subst hdb
      refine ⟨?_, hE, hT⟩
      intro r hr hcash
      obtain ⟨r0, hr0, hor⟩ := mem_map_ite _ _ _ r hr
      rcases hor with rfl | rfl
      · exact hI _ hr0 hcash
      · have hcash' : ns = SrcType.cash := hcash
        show na = none
        exact hcash0 hcash'
  | expensePut movId p =>
    show cashNullInv (orKeep db (expensePutH db u movId p))
    cases hH : expensePutH db u movId p with
    | error e => exact ⟨hI, hE, hT⟩
    | ok db' =>
      obtain ⟨amt, nc, ns, na, hcash0, hdb⟩ := expensePutH_inv db u movId p db' hH
      subst hdb
      refine ⟨hI, ?_, hT⟩
      intro r hr hcash
      obtain ⟨r0, hr0, hor⟩ := mem_map_ite _ _ _ r hr
      rcases hor with rfl | rfl
      · exact hE _ hr0 hcash
      · have hcash' : ns = SrcType.cash := hcash
        show na = none
        exact hcash0 hcash'
  | transferPut movId p =>
    show cashNullInv (orKeep db (transferPutH db u movId p))
    cases hH : transferPutH db u movId p with
    | error e => exact ⟨hI, hE, hT⟩
    | ok db' =>
      obtain ⟨nc, srcId, dstId, hcash1, hcash2, hdb⟩ := transferPutH_inv db u movId p db' hH
      subst hdb
      refine ⟨hI, hE, ?_⟩
      intro r hr
      obtain ⟨r0, hr0, hor⟩ := mem_map_ite _ _ _ r hr
      rcases hor with rfl | rfl
      · exact hT _ hr0
      · constructor
        · intro hcash
          have hcash' : p.source_type = SrcType.cash := hcash
          show srcId = none
          exact hcash1 hcash'
        · intro hcash
          have hcash' : p.destination_type = SrcType.cash := hcash
          show dstId = none
          exact hcash2 hcash'
  | incomeDelete movId =>
    refine ⟨?_, hE, hT⟩
    intro r hr hcash
    obtain ⟨r0, hr0, hor⟩ := mem_map_ite _ _ _ r hr
    rcases hor with rfl | rfl
    · exact hI _ hr0 hcash
    · exact hI r0 hr0 hcash
  | expenseDelete movId =>
    refine ⟨hI, ?_, hT⟩
    intro r hr hcash
    obtain ⟨r0, hr0, hor⟩ := mem_map_ite _ _ _ r hr
    rcases hor with rfl | rfl
    · exact hE _ hr0 hcash
    · exact hE r0 hr0 hcash
  | transferDelete movId =>
    refine ⟨hI, hE, ?_⟩
    intro r hr
    obtain ⟨r0, hr0, hor⟩ := mem_map_ite _ _ _ r hr
    rcases hor with rfl | rfl
    · exact hT _ hr0
    · exact hT r0 hr0

/-- Witness for C10: the invariant holds on the empty store and is kept by
a concrete accepted cash income create. -/
theorem cash_movements_have_no_account_witness :
    cashNullInv (applyOp 1 dbW4 (.incomeCreate 1 plW4)) :=
  cash_movements_have_no_account 1 dbW4 (.incomeCreate 1 plW4)
    ⟨by intro r hr; simp [dbW4] at hr, by intro r hr; simp [dbW4] at hr,
     by intro r hr; simp [dbW4] at hr⟩

/-! ### C2: non-negativity of balances under accepted operations -/

/-- A pool: the singular cash pool or one bank account. -/
inductive Pool where
  | cash
  | bank (accountId : Nat)
deriving DecidableEq

/-- The `source` column value of a pool. -/
def Pool.srcType : Pool → SrcType
  | .cash => .cash
  | .bank _ => .bank

/-- The account-id filter value of a pool. -/
def Pool.accId : Pool → Option Nat
  | .cash => none
  | .bank i => some i

/-- The account record the routes pass to `computeAccountBalance` for a
pool: the loaded (owned, live) account row for a bank pool, nothing for
cash. -/
def Pool.accountRec (db : Db) (u : Nat) : Pool → Option AccountRow
  | .cash => none
  | .bank i => loadUserAccount db u (some i)

/-- The spec's `computeBalance(userId, pool, currency)`. -/
def poolBalance (db : Db) (u : Nat) (p : Pool) (cur : Option String) : ℚ :=
  computeAccountBalance db u p.srcType p.accId cur (p.accountRec db u)

/-- Every pool's balance is non-negative, in every currency, for every
user. -/
def NonNeg (db : Db) : Prop :=
  ∀ (u : Nat) (p : Pool) (c : Option String), 0 ≤ poolBalance db u p c

/-- `computeAccountBalance` depends on the currency argument only through
its normalisation. -/
theorem computeAccountBalance_class (db : Db) (u : Nat) (s : SrcType)
    (aid : Option Nat) (acc : Option AccountRow) {c c' : Option String}
    (h : normCurRaw c = normCurRaw c') :
    computeAccountBalance db u s aid c acc = computeAccountBalance db u s aid c' acc := by
  unfold computeAccountBalance
  rw [h]

theorem normCurRaw_of_mem {x : String} (h : x = "NIO" ∨ x = "USD") :
    normCurRaw (some x) = x := by
  rcases h with rfl | rfl <;> rfl

/-- `normalizeCurrency` returns nothing or one of the two supported
currencies. -/
theorem normalizeCurrency_cases (o : Option String) :
    normalizeCurrency o = none ∨ normalizeCurrency o = some "NIO" ∨
      normalizeCurrency o = some "USD" := by
  cases o with
  | none => exact Or.inl rfl
  | some v =>
    by_cases hc : jsUpper (jsTrim v) = "NIO" ∨ jsUpper (jsTrim v) = "USD"
    · have hn : normalizeCurrency (some v) = some (jsUpper (jsTrim v)) := by
        simp only [normalizeCurrency]
        rw [if_pos hc]
      rw [hn]
      rcases hc with he | he <;> rw [he]
      · exact Or.inr (Or.inl rfl)
      · exact Or.inr (Or.inr rfl)
    · have hn : normalizeCurrency (some v) = none := by
        simp only [normalizeCurrency]
        rw [if_neg hc]
      exact Or.inl hn

/-- The persisted currency of an accepted income/expense create is one of
the two supported currencies. -/
theorem movCreateCurrency_mem (db : Db) (u : Nat) (source : SrcType)
    (account_id : Option Nat) (cur : String) (acct : Option AccountRow)
    (aid : Option Nat)
    (hres : resolveCreateAccount db u source account_id cur = .ok (acct, aid)) :
    movCreateCurrency acct cur = "NIO" ∨ movCreateCurrency acct cur = "USD" := by
  rcases resolveCreateAccount_inv db u source account_id cur acct aid hres with
    ⟨_, rfl, _⟩ | ⟨i, a, _, _, _, rfl, _, hens⟩
  · show (normalizeCurrency (some cur)).getD "USD" = _ ∨ (normalizeCurrency (some cur)).getD "USD" = _
    rcases normalizeCurrency_cases (some cur) with hn | hn | hn <;> rw [hn]
    · exact Or.inr rfl
    · exact Or.inl rfl
    · exact Or.inr rfl
  · show a.currency = _ ∨ a.currency = _
    unfold ensureAccountCurrency at hens
    have heq : normalizeCurrency (some cur) = some a.currency := beq_iff_eq.mp hens
    rcases normalizeCurrency_cases (some cur) with hn | hn | hn <;> rw [hn] at heq
    · exact absurd heq (by simp)
    · exact Or.inl (Option.some.inj heq).symm
    · exact Or.inr (Option.some.inj heq).symm

/-- The persisted currency of an accepted transfer create is one of the
two supported currencies. -/
theorem transferCurrency_mem (srcA dstA : Option AccountRow) (cur : String) :
    transferCurrency srcA dstA cur = "NIO" ∨ transferCurrency srcA dstA cur = "USD" := by
  unfold transferCurrency
  exact normalizeCurrency_getD_mem _

/-! #### How one inserted row shifts a computed balance -/

theorem computeAccountBalance_cons_income (db : Db) (r : IncomeRow) (u : Nat)
    (s : SrcType) (aid : Option Nat) (cur : Option String) (acc : Option AccountRow) :
    computeAccountBalance { db with incomes := r :: db.incomes } u s aid cur acc =
      computeAccountBalance db u s aid cur acc +
        (if incomeLedgerFilter u s aid (normCurRaw cur) r then r.amount else 0) := by
  simp only [computeAccountBalance]
  by_cases hf : incomeLedgerFilter u s aid (normCurRaw cur) r = true
  · rw [List.filter_cons_of_pos hf, sumAmounts_cons, if_pos hf]
    ring
  · rw [List.filter_cons_of_neg (by simpa using hf), if_neg hf]
    ring

theorem computeAccountBalance_cons_expense (db : Db) (r : ExpenseRow) (u : Nat)
    (s : SrcType) (aid : Option Nat) (cur : Option String) (acc : Option AccountRow) :
    computeAccountBalance { db with expenses := r :: db.expenses } u s aid cur acc =
      computeAccountBalance db u s aid cur acc -
        (if expenseLedgerFilter u s aid (normCurRaw cur) r then r.amount else 0) := by
  simp only [computeAccountBalance]
  by_cases hf : expenseLedgerFilter u s aid (normCurRaw cur) r = true
  · rw [List.filter_cons_of_pos hf, sumAmounts_cons, if_pos hf]
    ring
  · rw [List.filter_cons_of_neg (by simpa using hf), if_neg hf]
    ring

theorem computeAccountBalance_cons_transfer (db : Db) (r : TransferRow) (u : Nat)
    (s : SrcType) (aid : Option Nat) (cur : Option String) (acc : Option AccountRow) :
    computeAccountBalance { db with transfers := r :: db.transfers } u s aid cur acc =
      computeAccountBalance db u s aid cur acc
        + (if incomingLedgerFilter u s aid (normCurRaw cur) r then r.amount else 0)
        - (if outgoingLedgerFilter u s aid (normCurRaw cur) r then r.amount else 0) := by
  simp only [computeAccountBalance]
  by_cases hin : incomingLedgerFilter u s aid (normCurRaw cur) r = true <;>
    by_cases hout : outgoingLedgerFilter u s aid (normCurRaw cur) r = true
  · rw [List.filter_cons_of_pos hin, List.filter_cons_of_pos hout,
      sumAmounts_cons, sumAmounts_cons, if_pos hin, if_pos hout]
    ring
  · rw [List.filter_cons_of_pos hin, List.filter_cons_of_neg (by simpa using hout),
      sumAmounts_cons, if_pos hin, if_neg hout]
    ring
  · rw [List.filter_cons_of_neg (by simpa using hin), List.filter_cons_of_pos hout,
      sumAmounts_cons, if_neg hin, if_pos hout]
    ring
  · rw [List.filter_cons_of_neg (by simpa using hin),
      List.filter_cons_of_neg (by simpa using hout), if_neg hin, if_neg hout]
    ring

theorem Pool.accountRec_incomes (db : Db) (r : IncomeRow) (u : Nat) (p : Pool) :
    p.accountRec { db with incomes := r :: db.incomes } u = p.accountRec db u := by
  cases p <;> rfl

theorem Pool.accountRec_expenses (db : Db) (r : ExpenseRow) (u : Nat) (p : Pool) :
    p.accountRec { db with expenses := r :: db.expenses } u = p.accountRec db u := by
  cases p <;> rfl

theorem Pool.accountRec_transfers (db : Db) (r : TransferRow) (u : Nat) (p : Pool) :
    p.accountRec { db with transfers := r :: db.transfers } u = p.accountRec db u := by
  cases p <;> rfl

theorem poolBalance_cons_income (db : Db) (r : IncomeRow) (u : Nat) (p : Pool)
    (c : Option String) :
    poolBalance { db with incomes := r :: db.incomes } u p c =
      poolBalance db u p c +
        (if incomeLedgerFilter u p.srcType p.accId (normCurRaw c) r then r.amount else 0) := by
  unfold poolBalance
  rw [Pool.accountRec_incomes]
  exact computeAccountBalance_cons_income db r u p.srcType p.accId c (p.accountRec db u)

theorem poolBalance_cons_expense (db : Db) (r : ExpenseRow) (u : Nat) (p : Pool)
    (c : Option String) :
    poolBalance { db with expenses := r :: db.expenses } u p c =
      poolBalance db u p c -
        (if expenseLedgerFilter u p.srcType p.accId (normCurRaw c) r then r.amount else 0) := by
  unfold poolBalance
  rw [Pool.accountRec_expenses]
  exact computeAccountBalance_cons_expense db r u p.srcType p.accId c (p.accountRec db u)

theorem poolBalance_cons_transfer (db : Db) (r : TransferRow) (u : Nat) (p : Pool)
    (c : Option String) :
    poolBalance { db with transfers := r :: db.transfers } u p c =
      poolBalance db u p c
        + (if incomingLedgerFilter u p.srcType p.accId (normCurRaw c) r then r.amount else 0)
        - (if outgoingLedgerFilter u p.srcType p.accId (normCurRaw c) r then r.amount else 0) := by
  unfold poolBalance
  rw [Pool.accountRec_transfers]
  exact computeAccountBalance_cons_transfer db r u p.srcType p.accId c (p.accountRec db u)

/-! #### Unpacking a satisfied ledger filter -/

theorem expenseLedgerFilter_true {u : Nat} {s : SrcType} {aid : Option Nat}
    {c : String} {r : ExpenseRow} (h : expenseLedgerFilter u s aid c r = true) :
    r.user_id = u ∧ r.source = s ∧ r.currency = c ∧
      (match s with
       | SrcType.bank => r.account_id = aid
       | SrcType.cash => r.account_id = none) := by
  unfold expenseLedgerFilter at h
  cases s <;> simp only [Bool.and_eq_true, beq_iff_eq, Bool.not_eq_true'] at h <;> tauto

theorem outgoingLedgerFilter_true {u : Nat} {s : SrcType} {aid : Option Nat}
    {c : String} {r : TransferRow} (h : outgoingLedgerFilter u s aid c r = true) :
    r.user_id = u ∧ r.from_type = s ∧ r.currency = c ∧
      (match s with
       | SrcType.bank => r.from_account_id = aid
       | SrcType.cash => r.from_account_id = none) := by
  unfold outgoingLedgerFilter at h
  cases s <;> simp only [Bool.and_eq_true, beq_iff_eq, Bool.not_eq_true'] at h <;> tauto

/-- An accepted income create keeps every balance non-negative. -/
theorem incomeCreate_preserves (db : Db) (u nid : Nat) (p : MovPayload)
    (h0 : NonNeg db) : NonNeg (orKeep db (incomeCreateH db u nid p)) := by
  cases hH : incomeCreateH db u nid p with
  | error e => exact h0
  | ok db' =>
    obtain ⟨cur, acct, aid, hcur, hamt, hres, hdb⟩ := incomeCreateH_inv db u nid p db' hH
    subst hdb
    simp only [orKeep]
    intro u' pool c
    rw [poolBalance_cons_income]
    have hamt' : (0 : ℚ) ≤ p.amount := not_lt.mp hamt
    have h1 := h0 u' pool c
    split_ifs with hf
    · exact add_nonneg h1 hamt'
    · simpa using h1

/-- An accepted expense create keeps every balance non-negative: the
debited pool's balance was checked at the persisted currency, and no other
balance changes. -/
theorem expenseCreate_preserves (db : Db) (u nid : Nat) (p : MovPayload)
    (h0 : NonNeg db) : NonNeg (orKeep db (expenseCreateH db u nid p)) := by
  cases hH : expenseCreateH db u nid p with
  | error e => exact h0
  | ok db' =>
    obtain ⟨cur, acct, aid, hcur, hamt, hres, hbal, hdb⟩ := expenseCreateH_inv db u nid p db' hH
    subst hdb
    simp only [orKeep]
    intro u' pool c
    rw [poolBalance_cons_expense]
    split_ifs with hf
    · obtain ⟨hu, hs, hcurr, hmatch⟩ := expenseLedgerFilter_true hf
      have hu' : u = u' := hu
      subst hu'
      have hs' : p.source = pool.srcType := hs
      have hcur' : movCreateCurrency acct cur = normCurRaw c := hcurr
      have hnc := movCreateCurrency_mem db u p.source p.account_id cur acct aid hres
      have hnorm := normCurRaw_of_mem hnc
      have haid : aid = pool.accId := by
        cases pool with
        | cash => exact hmatch
        | bank i0 => exact hmatch
      have hacc : acct = pool.accountRec db u := by
        rcases resolveCreateAccount_inv db u p.source p.account_id cur acct aid hres with
          ⟨hsrc0, rfl, rfl⟩ | ⟨i, a, hsrc0, _, hload, rfl, rfl, _⟩
        · cases pool with
          | cash => rfl
          | bank i0 => rw [hsrc0] at hs'; exact absurd hs' (by simp [Pool.srcType])
        · cases pool with
          | cash => rw [hsrc0] at hs'; exact absurd hs' (by simp [Pool.srcType])
          | bank i0 =>
            have hi : i = i0 := Option.some.inj haid
            show some a = loadUserAccount db u (some i0)
            rw [← hi]
            exact hload.symm
      have hkey : computeAccountBalance db u p.source aid
          (some (movCreateCurrency acct cur)) acct = poolBalance db u pool c := by
        unfold poolBalance
        rw [← hs', ← haid, ← hacc]
        exact computeAccountBalance_class db u p.source aid acct (hnorm.trans hcur')
      have hge := not_lt.mp hbal
      rw [hkey] at hge
      exact sub_nonneg.mpr hge
    · simpa using h0 u' pool c

/-- An accepted transfer create keeps every balance non-negative. -/
theorem transferCreate_preserves (db : Db) (u nid : Nat) (p : TransferPayload)
    (h0 : NonNeg db) : NonNeg (orKeep db (transferCreateH db u nid p)) := by
  cases hH : transferCreateH db u nid p with
  | error e => exact h0
  | ok db' =>
    obtain ⟨cur, srcA, srcId, dstA, dstId, hamt, hcur, hsrc, hdst, he1, he2, hbal, hdb⟩ :=
      transferCreateH_inv db u nid p db' hH
    subst hdb
    simp only [orKeep]
    intro u' pool c
    rw [poolBalance_cons_transfer]
    have hamt' : (0 : ℚ) ≤ p.amount := le_of_lt hamt
    have h1 := h0 u' pool c
    split_ifs with hin hout hout
    · simpa using h1
    · have := add_nonneg h1 hamt'
      simpa using this
    · obtain ⟨hu, hs, hcurr, hmatch⟩ := outgoingLedgerFilter_true hout
      have hu' : u = u' := hu
      subst hu'
      have hs' : p.source_type = pool.srcType := hs
      have hcur' : transferCurrency srcA dstA cur = normCurRaw c := hcurr
      have hnorm := normCurRaw_of_mem (transferCurrency_mem srcA dstA cur)
      have haid : srcId = pool.accId := by
        cases pool with
        | cash => exact hmatch
        | bank i0 => exact hmatch
      have hacc : srcA = pool.accountRec db u := by
        rcases resolveTransferSide_inv db u p.source_type p.source_account_id srcA srcId hsrc with
          ⟨hsrc0, rfl, rfl⟩ | ⟨i, a, hsrc0, _, hload, rfl, rfl⟩
        · cases pool with
          | cash => rfl
          | bank i0 => rw [hsrc0] at hs'; exact absurd hs' (by simp [Pool.srcType])
        · cases pool with
          | cash => rw [hsrc0] at hs'; exact absurd hs' (by simp [Pool.srcType])
          | bank i0 =>
            have hi : i = i0 := Option.some.inj haid
            show some a = loadUserAccount db u (some i0)
            rw [← hi]
            exact hload.symm
      have hm : (match p.source_type with
          | SrcType.bank => srcId
          | SrcType.cash => none) = srcId := by
        rcases resolveTransferSide_inv db u p.source_type p.source_account_id srcA srcId hsrc with
          ⟨hsrc0, _, hid⟩ | ⟨i, a, hsrc0, _, _, _, hid⟩
        · rw [hsrc0, hid]
        · rw [hsrc0]
      have hkey : computeAccountBalance db u p.source_type
          (match p.source_type with
           | SrcType.bank => srcId
           | SrcType.cash => none)
          (some (transferCurrency srcA dstA cur)) srcA = poolBalance db u pool c := by
        unfold poolBalance
        rw [hm, ← hs', ← haid, ← hacc]
        exact computeAccountBalance_class db u p.source_type srcId srcA (hnorm.trans hcur')
      have hge := not_lt.mp hbal
      rw [hkey] at hge
      have : (0 : ℚ) ≤ poolBalance db u pool c - p.amount := sub_nonneg.mpr hge
      simpa using this
    · simpa using h1

/-- One accepted create keeps every balance non-negative. -/
theorem create_step_preserves (u : Nat) (db : Db) (op : Op)
    (hc : op.isCreate = true) (h0 : NonNeg db) : NonNeg (applyOp u db op) := by
  cases op with
  | incomeCreate nid p => exact incomeCreate_preserves db u nid p h0
  | expenseCreate nid p => exact expenseCreate_preserves db u nid p h0
  | transferCreate nid p => exact transferCreate_preserves db u nid p h0
  | incomePut a b => simp [Op.isCreate] at hc
  | expensePut a b => simp [Op.isCreate] at hc
  | transferPut a b => simp [Op.isCreate] at hc
  | incomeDelete a => simp [Op.isCreate] at hc
  | expenseDelete a => simp [Op.isCreate] at hc
  | transferDelete a => simp [Op.isCreate] at hc

theorem run_creates_preserves (u : Nat) (ops : List Op) :
    ∀ (db : Db), NonNeg db → (∀ op ∈ ops, op.isCreate = true) →
      NonNeg (run u db ops) := by
  induction ops with
  | nil => intro db h0 _; exact h0
  | cons op rest ih =>
    intro db h0 hops
    show NonNeg (run u (applyOp u db op) rest)
    exact ih (applyOp u db op)
      (create_step_preserves u db op (hops op (by simp)) h0)
      (fun o ho => hops o (by simp [ho]))

/-- C2 amended: starting from any store in which every pool's balance is
non-negative (in every currency, for every user), every sequence of
income, expense and transfer **create** requests — whether accepted or
rejected by the validator — keeps `computeBalance(pool, currency) ≥ 0`
for every pool and currency after every step. (Deletes and updates are
excluded: the income DELETE/PUT routes run no balance check, so they can
drive a balance negative — see the counterexample.) -/
theorem balance_nonneg_create_sequences (u : Nat) (db : Db) (ops : List Op)
    (h0 : NonNeg db) (hops : ∀ op ∈ ops, op.isCreate = true) :
    ∀ n : Nat, NonNeg (run u db (ops.take n)) := by
  intro n
  exact run_creates_preserves u (ops.take n) db h0
    (fun o ho => hops o (List.take_subset n ops ho))

/-- The empty store (all balances 0). -/
def dbEmpty2 : Db := { incomes := [], expenses := [], transfers := [], accounts := [] }

theorem nonNeg_dbEmpty2 : NonNeg dbEmpty2 := by
  intro u p c
  cases p with
  | cash =>
    show (0 : ℚ) ≤ 0 + 0 + 0 - 0 - 0
    norm_num
  | bank i =>
    show (0 : ℚ) ≤ 0 + 0 + 0 - 0 - 0
    norm_num

/-- Witness for C2 at a concrete one-create sequence from the empty
store, instantiated after the first step. -/
theorem balance_nonneg_create_sequences_witness :
    NonNeg dbEmpty2 ∧ NonNeg (run 1 dbEmpty2 ([Op.incomeCreate 1 plW4].take 1)) :=
  ⟨nonNeg_dbEmpty2,
    balance_nonneg_create_sequences 1 dbEmpty2 [Op.incomeCreate 1 plW4]
      nonNeg_dbEmpty2 (by decide) 1⟩

/-- The cash income of the C2 counterexample. -/
def plInc2 : MovPayload :=
  { amount := 100, currency := some "NIO", source := .cash, account_id := none,
    date := "2024-01-05" }

/-- The cash expense of the C2 counterexample. -/
def plExp2 : MovPayload :=
  { amount := 100, currency := some "NIO", source := .cash, account_id := none,
    date := "2024-01-06" }

/-- The stored income row after the first step. -/
def rowInc2 : IncomeRow :=
  { id := 1, user_id := 1, amount := 100, currency := "NIO", source := .cash,
    account_id := none, date := "2024-01-05", deleted := false }

/-- The stored expense row after the second step. -/
def rowExp2 : ExpenseRow :=
  { id := 2, user_id := 1, amount := 100, currency := "NIO", source := .cash,
    account_id := none, date := "2024-01-06", deleted := false }

/-- The store after the accepted income create. -/
def dbStep1 : Db := { incomes := [rowInc2], expenses := [], transfers := [], accounts := [] }

/-- The store after the accepted expense create. -/
def dbStep2 : Db := { incomes := [rowInc2], expenses := [rowExp2], transfers := [], accounts := [] }

/-- The store after the income delete: the cash pool is overdrawn. -/
def dbStep3 : Db :=
  { incomes := [{ rowInc2 with deleted := true }], expenses := [rowExp2],
    transfers := [], accounts := [] }

/-- Counterexample to C2 as stated: from the empty store (every balance
non-negative) the validator accepts an income of 100, an expense of 100
(the balance gate sees 100), and then the income DELETE — which runs no
balance check — leaving the cash pool at -100. Deletes (and income
updates) break the invariant. -/
theorem balance_nonneg_counterexample :
    NonNeg dbEmpty2 ∧
    incomeCreateH dbEmpty2 1 1 plInc2 = .ok dbStep1 ∧
    expenseCreateH dbStep1 1 2 plExp2 = .ok dbStep2 ∧
    run 1 dbEmpty2 [Op.incomeCreate 1 plInc2, Op.expenseCreate 2 plExp2,
      Op.incomeDelete 1] = dbStep3 ∧
    poolBalance dbStep3 1 Pool.cash (some "NIO") = -100 ∧
    poolBalance dbStep3 1 Pool.cash (some "NIO") < 0 := by
  have h1 : incomeCreateH dbEmpty2 1 1 plInc2 = .ok dbStep1 := rfl
  have hb : computeAccountBalance dbStep1 1 .cash none (some "NIO") none = 100 := by
    show (0 : ℚ) + (0 + 100) + 0 - 0 - 0 = 100
    norm_num
  have h2 : expenseCreateH dbStep1 1 2 plExp2 = .ok dbStep2 := by
    unfold expenseCreateH
    rw [show parseCurrencyField "USD" plExp2.currency = Except.ok "NIO" from rfl]
    simp only []
    rw [if_neg (show ¬ plExp2.amount < 0 by decide)]
    rw [show resolveCreateAccount dbStep1 1 plExp2.source plExp2.account_id "NIO"
        = Except.ok (none, none) from rfl]
    simp only []
    rw [show movCreateCurrency none "NIO" = "NIO" from rfl]
    rw [show plExp2.source = SrcType.cash from rfl]
    rw [hb]
    rw [if_neg (show ¬ (100 : ℚ) < plExp2.amount by decide)]
    rfl
  have hrun : run 1 dbEmpty2 [Op.incomeCreate 1 plInc2, Op.expenseCreate 2 plExp2,
      Op.incomeDelete 1] = dbStep3 := by
    show applyOp 1 (applyOp 1 (applyOp 1 dbEmpty2 (Op.incomeCreate 1 plInc2))
      (Op.expenseCreate 2 plExp2)) (Op.incomeDelete 1) = dbStep3
    have s1 : applyOp 1 dbEmpty2 (Op.incomeCreate 1 plInc2) = dbStep1 := by
      show orKeep dbEmpty2 (incomeCreateH dbEmpty2 1 1 plInc2) = dbStep1
      rw [h1]
      rfl
    have s2 : applyOp 1 dbStep1 (Op.expenseCreate 2 plExp2) = dbStep2 := by
      show orKeep dbStep1 (expenseCreateH dbStep1 1 2 plExp2) = dbStep2
      rw [h2]
      rfl
    rw [s1, s2]
    rfl
  have hneg : poolBalance dbStep3 1 Pool.cash (some "NIO") = -100 := by
    show (0 : ℚ) + 0 + 0 - (0 + 100) - 0 = -100
    norm_num
  exact ⟨nonNeg_dbEmpty2, h1, h2, hrun, hneg, by rw [hneg]; norm_num⟩

/-! ### C3: the add-back rule of the update balance gates -/

/-- The available balance as the amended claim words it for expense
updates: the recomputed balance plus the movement's own stored amount
exactly when the pool (source type and account reference) is unchanged —
regardless of any currency change — and the recomputed balance alone
otherwise. -/
def amendedAvailableExp (current : ExpenseRow) (ns : SrcType) (na : Option Nat)
    (bal : ℚ) : ℚ :=
  if current.source = ns ∧ (ns = SrcType.bank → current.account_id = na) ∧
      (ns = SrcType.cash → current.account_id = none)
  then bal + current.amount else bal

/-- The available balance as the claim words it for transfer updates: the
recomputed balance plus the stored amount exactly when the source type,
the source account and the (normalised) currency are all unchanged. -/
def amendedAvailableTr (current : TransferRow) (sourceType : SrcType)
    (srcId : Option Nat) (nc : String) (bal : ℚ) : ℚ :=
  if current.from_type = sourceType ∧ current.from_account_id = srcId ∧
      (normalizeCurrency (some current.currency)).getD "NIO" = nc
  then bal + current.amount else bal

/-- The expense PUT's `switchingAccount` test is false exactly when the
pool is unchanged (currency plays no role). -/
theorem expenseSwitching_iff (current : ExpenseRow) (ns : SrcType) (na : Option Nat) :
    expenseSwitchingAccount current ns na = false ↔
      (current.source = ns ∧ (ns = SrcType.bank → current.account_id = na) ∧
        (ns = SrcType.cash → current.account_id = none)) := by
  unfold expenseSwitchingAccount
  cases ns <;> simp [bne]

/-- The transfer PUT's `isSameSource` test holds exactly when source type,
source account and normalised currency are all unchanged. -/
theorem transferIsSameSource_iff (current : TransferRow) (st : SrcType)
    (srcId : Option Nat) (nc : String) :
    transferIsSameSource current st srcId nc = true ↔
      (current.from_type = st ∧ current.from_account_id = srcId ∧
        (normalizeCurrency (some current.currency)).getD "NIO" = nc) := by
  unfold transferIsSameSource
  simp [Bool.and_eq_true, beq_iff_eq, and_assoc]

/-- C3 amended: an expense or transfer update is rejected with the
insufficient-balance error exactly when the requested amount exceeds the
available balance — where, for expenses, the movement's own stored amount
is added back exactly when the pool (source type and account) is
unchanged, regardless of currency changes, and for transfers exactly when
source type, source account and normalised currency are all unchanged. -/
theorem update_insufficient_iff :
    (∀ (db : Db) (u movId : Nat) (p : MovPutPayload) (pcur : Option String)
       (current : ExpenseRow) (acct : Option AccountRow) (nextAid : Option Nat)
       (nc : String),
       p.nonempty = true →
       parseCurrencyOpt p.currency = .ok pcur →
       ¬ (p.amount.getD 0) < 0 →
       db.expenses.find? (fun r => r.id == movId && r.user_id == u && !r.deleted) = some current →
       resolvePutAccount db u (p.source.getD current.source) p.account_id current.account_id
         = .ok (acct, nextAid) →
       nc = (match acct with
         | some a => a.currency
         | none => (normalizeCurrency (pcur.orElse (fun _ => some current.currency))).getD "NIO") →
       ensureAccountCurrency acct (some nc) = true →
       (expensePutH db u movId p = .error .insufficientBalance ↔
         amendedAvailableExp current (p.source.getD current.source) nextAid
           (computeAccountBalance db u (p.source.getD current.source)
             (match p.source.getD current.source with
              | SrcType.bank => nextAid
              | SrcType.cash => none) (some nc) acct)
           < p.amount.getD current.amount)) ∧
    (∀ (db : Db) (u movId : Nat) (p : TransferPayload) (cur : String)
       (current : TransferRow) (srcA dstA : Option AccountRow) (srcId dstId : Option Nat),
       0 < p.amount →
       parseCurrencyField "NIO" (some p.currency) = .ok cur →
       db.transfers.find? (fun r => r.id == movId && r.user_id == u && !r.deleted) = some current →
       resolveTransferSide db u p.source_type p.source_account_id = .ok (srcA, srcId) →
       resolveTransferSide db u p.destination_type p.destination_account_id = .ok (dstA, dstId) →
       ¬ (p.source_type = SrcType.bank ∧ p.destination_type = SrcType.bank ∧ srcId = dstId) →
       ensureAccountCurrency srcA (some (transferCurrency srcA dstA cur)) = true →
       ensureAccountCurrency dstA (some (transferCurrency srcA dstA cur)) = true →
       (transferPutH db u movId p = .error .insufficientBalance ↔
         amendedAvailableTr current p.source_type srcId (transferCurrency srcA dstA cur)
           (computeAccountBalance db u p.source_type
             (match p.source_type with
              | SrcType.bank => srcId
              | SrcType.cash => none)
             (some (transferCurrency srcA dstA cur)) srcA)
           < p.amount)) := by
  constructor
  · intro db u movId p pcur current acct nextAid nc hne hcur hamt hfind hres hnc hens
    unfold expensePutH
    rw [if_neg (not_not_intro hne)]
    rw [hcur]
    simp only []
    rw [if_neg hamt]
    rw [hfind]
    simp only []
    rw [hres]
    simp only []
    rw [← hnc]
    rw [if_neg (not_not_intro hens)]
    have hAv : (if expenseSwitchingAccount current (p.source.getD current.source) nextAid
          then computeAccountBalance db u (p.source.getD current.source)
            (match p.source.getD current.source with
             | SrcType.bank => nextAid
             | SrcType.cash => none) (some nc) acct
          else computeAccountBalance db u (p.source.getD current.source)
            (match p.source.getD current.source with
             | SrcType.bank => nextAid
             | SrcType.cash => none) (some nc) acct + current.amount)
        = amendedAvailableExp current (p.source.getD current.source) nextAid
            (computeAccountBalance db u (p.source.getD current.source)
              (match p.source.getD current.source with
               | SrcType.bank => nextAid
               | SrcType.cash => none) (some nc) acct) := by
      unfold amendedAvailableExp
      by_cases hsw : expenseSwitchingAccount current (p.source.getD current.source) nextAid = true
      · rw [hsw]
        rw [if_neg (fun hc => absurd
          ((expenseSwitching_iff current (p.source.getD current.source) nextAid).mpr hc)
          (by simp [hsw]))]
        simp
      · have hsw' : expenseSwitchingAccount current (p.source.getD current.source) nextAid = false :=
          Bool.eq_false_iff.mpr hsw
        rw [hsw']
        rw [if_pos ((expenseSwitching_iff current (p.source.getD current.source) nextAid).mp hsw')]
        simp
    rw [hAv]
    by_cases hg : amendedAvailableExp current (p.source.getD current.source) nextAid
        (computeAccountBalance db u (p.source.getD current.source)
          (match p.source.getD current.source with
           | SrcType.bank => nextAid
           | SrcType.cash => none) (some nc) acct)
        < p.amount.getD current.amount
    · rw [if_pos hg]
      exact ⟨fun _ => hg, fun _ => rfl⟩
    · rw [if_neg hg]
      exact ⟨fun hc => absurd hc (by simp), fun hc => absurd hc hg⟩
  · intro db u movId p cur current srcA dstA srcId dstId hamt hcur hfind hsrc hdst hsame hens1 hens2
    unfold transferPutH
    rw [if_neg (not_not_intro hamt)]
    rw [hcur]
    simp only []
    rw [hfind]
    simp only []
    rw [hsrc]
    simp only []
    rw [hdst]
    simp only []
    rw [if_neg hsame]
    rw [if_neg (not_not_intro hens1)]
    rw [if_neg (not_not_intro hens2)]
    have hAv : (if transferIsSameSource current p.source_type srcId (transferCurrency srcA dstA cur)
          then computeAccountBalance db u p.source_type
            (match p.source_type with
             | SrcType.bank => srcId
             | SrcType.cash => none)
            (some (transferCurrency srcA dstA cur)) srcA + current.amount
          else computeAccountBalance db u p.source_type
            (match p.source_type with
             | SrcType.bank => srcId
             | SrcType.cash => none)
            (some (transferCurrency srcA dstA cur)) srcA)
        = amendedAvailableTr current p.source_type srcId (transferCurrency srcA dstA cur)
            (computeAccountBalance db u p.source_type
              (match p.source_type with
               | SrcType.bank => srcId
               | SrcType.cash => none)
              (some (transferCurrency srcA dstA cur)) srcA) := by
      unfold amendedAvailableTr
      by_cases hsw : transferIsSameSource current p.source_type srcId (transferCurrency srcA dstA cur) = true
      · rw [hsw]
        rw [if_pos ((transferIsSameSource_iff current p.source_type srcId
          (transferCurrency srcA dstA cur)).mp hsw)]
        simp
      · have hsw' : transferIsSameSource current p.source_type srcId (transferCurrency srcA dstA cur) = false :=
          Bool.eq_false_iff.mpr hsw
        rw [hsw']
        rw [if_neg (fun hc => hsw ((transferIsSameSource_iff current p.source_type srcId
          (transferCurrency srcA dstA cur)).mpr hc))]
        simp
    rw [hAv]
    by_cases hg : amendedAvailableTr current p.source_type srcId (transferCurrency srcA dstA cur)
        (computeAccountBalance db u p.source_type
          (match p.source_type with
           | SrcType.bank => srcId
           | SrcType.cash => none)
          (some (transferCurrency srcA dstA cur)) srcA)
        < p.amount
    · rw [if_pos hg]
      exact ⟨fun _ => hg, fun _ => rfl⟩
    · rw [if_neg hg]
      exact ⟨fun hc => absurd hc (by simp), fun hc => absurd hc hg⟩

/-- The stored income of the C3 counterexample store. -/
def incC3 : IncomeRow :=
  { id := 1, user_id := 1, amount := 60, currency := "NIO", source := .cash,
    account_id := none, date := "2024-01-05", deleted := false }

/-- The stored expense being updated in the C3 counterexample. -/
def expC3 : ExpenseRow :=
  { id := 2, user_id := 1, amount := 50, currency := "NIO", source := .cash,
    account_id := none, date := "2024-01-06", deleted := false }

/-- The C3 counterexample store: a 60 NIO cash income and a 50 NIO cash
expense; the cash pool's USD balance is 0. -/
def dbC3 : Db := { incomes := [incC3], expenses := [expC3], transfers := [], accounts := [] }

/-- The C3 counterexample update: same cash pool, currency changed from
NIO to USD, new amount 10. -/
def plC3 : MovPutPayload :=
  { amount := some 10, currency := some "USD", source := none,
    account_id := none, date := none, note := none }

/-- The updated expense the code persists. -/
def expC3upd : ExpenseRow :=
  { id := 2, user_id := 1, amount := 10, currency := "USD", source := .cash,
    account_id := none, date := "2024-01-06", deleted := false }

/-- The store after the accepted update. -/
def dbC3upd : Db := { incomes := [incC3], expenses := [expC3upd], transfers := [], accounts := [] }

/-- Counterexample to C3 as stated: an expense update that keeps the cash
pool but changes the currency from NIO to USD (new amount 10) is accepted
by the code — `switchingAccount` ignores the currency, so the stored 50 is
added back to the USD balance 0 — while the claim's rule (add back only
when pool AND currency are both unchanged) makes the available balance 0
and mandates an insufficient-balance rejection, since 10 > 0. -/
theorem update_insufficient_counterexample :
    expensePutH dbC3 1 2 plC3 = .ok dbC3upd ∧
    computeAccountBalance dbC3 1 .cash none (some "USD") none = 0 ∧
    ((0 : ℚ) < 10) := by
  have hb : computeAccountBalance dbC3 1 SrcType.cash none (some "USD") none = 0 := by
    show (0 : ℚ) + 0 + 0 - 0 - 0 = 0
    norm_num
  refine ⟨?_, hb, by norm_num⟩
  unfold expensePutH
  rw [if_neg (show ¬ ¬ plC3.nonempty = true by decide)]
  rw [show parseCurrencyOpt plC3.currency = Except.ok (some "USD") from rfl]
  simp only []
  rw [if_neg (show ¬ (plC3.amount.getD 0) < 0 by decide)]
  rw [show dbC3.expenses.find? (fun r => r.id == 2 && r.user_id == 1 && !r.deleted)
      = some expC3 from rfl]
  simp only []
  rw [show plC3.source.getD expC3.source = SrcType.cash from rfl]
  rw [show resolvePutAccount dbC3 1 SrcType.cash plC3.account_id expC3.account_id
      = Except.ok (none, none) from rfl]
  simp only []
  rw [show (normalizeCurrency ((some "USD").orElse (fun _ => some expC3.currency))).getD "NIO"
      = "USD" from rfl]
  rw [if_neg (show ¬ ¬ ensureAccountCurrency none (some "USD") = true by decide)]
  rw [hb]
  rw [show expenseSwitchingAccount expC3 SrcType.cash none = false from rfl]
  rw [if_neg (show ¬ (false = true) by decide)]
  rw [if_neg (show ¬ ((0 : ℚ) + expC3.amount < plC3.amount.getD expC3.amount) by
    norm_num [expC3, plC3])]
  rfl

/-- The C3 witness update: same pool, same currency, new amount 10. -/
def plW3 : MovPutPayload :=
  { amount := some 10, currency := none, source := none, account_id := none,
    date := none, note := none }

/-- Witness for C3 at a concrete expense update against `dbC3`. -/
theorem update_insufficient_iff_witness :
    expensePutH dbC3 1 2 plW3 = .error .insufficientBalance ↔
      amendedAvailableExp expC3 (plW3.source.getD expC3.source) none
        (computeAccountBalance dbC3 1 (plW3.source.getD expC3.source)
          (match plW3.source.getD expC3.source with
           | SrcType.bank => none
           | SrcType.cash => none) (some "NIO") none)
        < plW3.amount.getD expC3.amount :=
  update_insufficient_iff.1 dbC3 1 2 plW3 none expC3 none none "NIO"
    (by decide) rfl (by decide) rfl rfl rfl rfl

/-! ### C7: the monthly series and its carry-forward
(`balance.js` `aggregateByMonth`, `ReportsPage.jsx` `buildBalanceReport`) -/

/-- A movement row as the balance GET route feeds it to the aggregator. -/
structure BalRow where
  amount : ℚ
  currency : String
  date : String
  source : SrcType
deriving DecidableEq

/-- One month bucket of `aggregateByMonth` (`map.set(month, {...})`). -/
structure MonthBucket where
  month : String
  incomes : ℚ
  expenses : ℚ
  incomesBank : ℚ
  incomesCash : ℚ
  expensesBank : ℚ
  expensesCash : ℚ
deriving DecidableEq

/-- `item.date.slice(0, 7)`: the year-month key. -/
def monthKey (s : String) : String := ⟨s.data.take 7⟩

/-- A fresh bucket (`{ month, incomes: 0, … }`). -/
def emptyBucket (m : String) : MonthBucket :=
  { month := m, incomes := 0, expenses := 0, incomesBank := 0,
    incomesCash := 0, expensesBank := 0, expensesCash := 0 }

/-- `bucket[key] += amount; bucket[detailKey] += amount`. -/
def bumpBucket (isIncome srcBank : Bool) (amt : ℚ) (b : MonthBucket) : MonthBucket :=
  if isIncome then
    { b with
      incomes := b.incomes + amt,
      incomesBank := if srcBank then b.incomesBank + amt else b.incomesBank,
      incomesCash := if srcBank then b.incomesCash else b.incomesCash + amt }
  else
    { b with
      expenses := b.expenses + amt,
      expensesBank := if srcBank then b.expensesBank + amt else b.expensesBank,
      expensesCash := if srcBank then b.expensesCash else b.expensesCash + amt }

/-- The `accumulate` closure of `aggregateByMonth`: a JS `Map` keyed by
month is an insertion-ordered association list; a missing key is appended,
then the month's bucket is bumped. -/
def accumulate (isIncome : Bool) (start : List MonthBucket) (rows : List BalRow) :
    List MonthBucket :=
  rows.foldl (fun acc item =>
    let month := monthKey item.date
    let acc' := if acc.any (fun b => b.month == month) then acc
                else acc ++ [emptyBucket month]
    acc'.map (fun b =>
      if b.month == month
      then bumpBucket isIncome (item.source == SrcType.bank)
        (toNio (.num item.amount) (some item.currency)) b
      else b)) start

/-- `aggregateByMonth`: fold the incomes, then the expenses, then sort the
buckets month-ascending (`(a, b) => (a.month < b.month ? -1 : 1)`). -/
def aggregateByMonth (incomes expenses : List BalRow) : List MonthBucket :=
  (accumulate false (accumulate true [] incomes) expenses).mergeSort
    (fun a b => strLe a.month b.month)

/-- One row of the monthly balance report of `buildBalanceReport`. -/
structure BalanceReportRow where
  month : String
  incomes : ℚ
  expenses : ℚ
  net : ℚ
  carryIn : ℚ
  carryOut : ℚ
deriving DecidableEq

/-- The running-carry map of `buildBalanceReport` (`runningCarry` starts at
the opening balance and each month adds `incomes − expenses`). -/
def buildRowsGo (carry : ℚ) : List MonthBucket → List BalanceReportRow
  | [] => []
  | b :: rest =>
    { month := b.month, incomes := b.incomes, expenses := b.expenses,
      net := b.incomes - b.expenses, carryIn := carry,
      carryOut := carry + (b.incomes - b.expenses) } ::
      buildRowsGo (carry + (b.incomes - b.expenses)) rest

/-- The monthly rows of `buildBalanceReport`:
`runningCarry = Number(payload?.openingBalance ?? 0)`, then one row per
bucket in series order. -/
def buildBalanceRows (opening : Option ℚ) (series : List MonthBucket) :
    List BalanceReportRow :=
  buildRowsGo (opening.getD 0) series

theorem lexLe_total (a b : List Char) : lexLe a b = true ∨ lexLe b a = true := by
  induction a generalizing b with
  | nil => exact Or.inl rfl
  | cons x xs ih =>
    cases b with
    | nil => exact Or.inr rfl
    | cons y ys =>
      by_cases hxy : x = y
      · subst hxy
        rcases ih ys with h | h
        · exact Or.inl (by simp [lexLe, h])
        · exact Or.inr (by simp [lexLe, h])
      · rcases lt_or_gt_of_ne hxy with hlt | hgt
        · exact Or.inl (by simp [lexLe, hxy, hlt])
        · exact Or.inr (by simp [lexLe, Ne.symm hxy, hgt])

theorem lexLe_trans (a b c : List Char) (hab : lexLe a b = true)
    (hbc : lexLe b c = true) : lexLe a c = true := by
  induction a generalizing b c with
  | nil => rfl
  | cons x xs ih =>
    cases b with
    | nil => simp [lexLe] at hab
    | cons y ys =>
      cases c with
      | nil => simp [lexLe] at hbc
      | cons z zs =>
        by_cases hxy : x = y
        · subst hxy
          by_cases hyz : x = z
          · subst hyz
            simp only [lexLe, if_pos rfl] at hab hbc ⊢
            exact ih ys zs hab hbc
          · simp only [lexLe, if_pos rfl] at hab
            simp only [lexLe, if_neg hyz] at hbc ⊢
            exact hbc
        · simp only [lexLe, if_neg hxy] at hab
          have hxy' : x < y := of_decide_eq_true hab
          by_cases hyz : y = z
          · subst hyz
            simp only [lexLe, if_neg hxy]
            exact decide_eq_true hxy'
          · simp only [lexLe, if_neg hyz] at hbc
            have hyz' : y < z := of_decide_eq_true hbc
            have hxz : x < z := lt_trans hxy' hyz'
            simp only [lexLe, if_neg (ne_of_lt hxz)]
            exact decide_eq_true hxz

theorem strLe_total (a b : String) : strLe a b = true ∨ strLe b a = true :=
  lexLe_total a.data b.data

theorem strLe_trans (a b c : String) (hab : strLe a b = true)
    (hbc : strLe b c = true) : strLe a c = true :=
  lexLe_trans a.data b.data c.data hab hbc

theorem buildRowsGo_months (c : ℚ) (l : List MonthBucket) :
    (buildRowsGo c l).map (·.month) = l.map (·.month) := by
  induction l generalizing c with
  | nil => rfl
  | cons b rest ih => simp [buildRowsGo, ih]

theorem buildRowsGo_carryOut (c : ℚ) (l : List MonthBucket) :
    ∀ r ∈ buildRowsGo c l, r.carryOut = r.carryIn + r.incomes - r.expenses := by
  induction l generalizing c with
  | nil => intro r hr; simp [buildRowsGo] at hr
  | cons b rest ih =>
    intro r hr
    rcases List.mem_cons.mp hr with rfl | hmem
    · show c + (b.incomes - b.expenses) = c + b.incomes - b.expenses
      ring
    · exact ih _ r hmem

theorem buildRowsGo_head (c : ℚ) (l : List MonthBucket) (r0 : BalanceReportRow)
    (rest : List BalanceReportRow) (h : buildRowsGo c l = r0 :: rest) :
    r0.carryIn = c := by
  cases l with
  | nil => simp [buildRowsGo] at h
  | cons b l' =>
    simp only [buildRowsGo] at h
    injection h with h1 h2
    rw [← h1]

theorem buildRowsGo_chain (c : ℚ) (l : List MonthBucket) :
    List.Chain' (fun a b => b.carryIn = a.carryOut) (buildRowsGo c l) := by
  induction l generalizing c with
  | nil => simp [buildRowsGo]
  | cons b rest ih =>
    cases rest with
    | nil => simp [buildRowsGo]
    | cons b2 r2 =>
      have hchain := ih (c + (b.incomes - b.expenses))
      simp only [buildRowsGo] at hchain ⊢
      exact List.Chain'.cons rfl hchain

/-- C7: for the monthly balance series built from the month-bucketed
dataset and an opening balance: the months come in ascending order, the
first row's carry-in is the opening balance (0 when none), each row's
carry-in equals the previous row's carry-out, and each row's carry-out is
its carry-in plus that month's incomes minus its expenses. -/
theorem monthly_series_carry (incomes expenses : List BalRow) (opening : Option ℚ)
    (rows : List BalanceReportRow)
    (hrows : rows = buildBalanceRows opening (aggregateByMonth incomes expenses)) :
    List.Chain' (fun a b => strLe a.month b.month = true) rows ∧
    (∀ r0 rest, rows = r0 :: rest → r0.carryIn = opening.getD 0) ∧
    List.Chain' (fun a b => b.carryIn = a.carryOut) rows ∧
    (∀ r ∈ rows, r.carryOut = r.carryIn + r.incomes - r.expenses) := by
  subst hrows
  refine ⟨?_, ?_, ?_, ?_⟩
  · have hsorted : List.Pairwise (fun a b => strLe a.month b.month = true)
        (aggregateByMonth incomes expenses) := by
      unfold aggregateByMonth
      exact List.sorted_mergeSort
        (fun a b c hab hbc => strLe_trans a.month b.month c.month hab hbc)
        (fun a b => by
          rcases strLe_total a.month b.month with h | h <;> simp [h])
        (accumulate false (accumulate true [] incomes) expenses)
    have hchain := hsorted.chain'
    have hm : (buildBalanceRows opening (aggregateByMonth incomes expenses)).map
          (fun r : BalanceReportRow => r.month)
        = (aggregateByMonth incomes expenses).map (fun b : MonthBucket => b.month) :=
      buildRowsGo_months _ _
    have h2 : List.Chain' (fun a b : String => strLe a b = true)
        ((buildBalanceRows opening (aggregateByMonth incomes expenses)).map
          (fun r : BalanceReportRow => r.month)) := by
      rw [hm]
      exact (List.chain'_map (fun b : MonthBucket => b.month)).mpr hchain
    exact (List.chain'_map (fun r : BalanceReportRow => r.month)).mp h2
  · intro r0 rest h
    exact buildRowsGo_head (opening.getD 0) (aggregateByMonth incomes expenses) r0 rest h
  · exact buildRowsGo_chain (opening.getD 0) (aggregateByMonth incomes expenses)
  · exact buildRowsGo_carryOut (opening.getD 0) (aggregateByMonth incomes expenses)

/-- A January income of the C7 witness. -/
def rowW7a : BalRow :=
  { amount := 60, currency := "NIO", date := "2024-01-10", source := .cash }

/-- A second January income of the C7 witness. -/
def rowW7b : BalRow :=
  { amount := 40, currency := "NIO", date := "2024-01-20", source := .cash }

/-- The February expense of the C7 witness. -/
def rowW7c : BalRow :=
  { amount := 40, currency := "NIO", date := "2024-02-05", source := .cash }

/-- Scenario-E-style income list for the C7 witness. -/
def incsW7 : List BalRow := [rowW7a, rowW7b]

/-- Scenario-E-style expense list for the C7 witness. -/
def expsW7 : List BalRow := [rowW7c]

/-- Witness for C7 at the Scenario-E-style inputs with no opening balance. -/
theorem monthly_series_carry_witness :
    List.Chain' (fun a b => strLe a.month b.month = true)
      (buildBalanceRows none (aggregateByMonth incsW7 expsW7)) ∧
    (∀ r0 rest, buildBalanceRows none (aggregateByMonth incsW7 expsW7) = r0 :: rest →
      r0.carryIn = (none : Option ℚ).getD 0) ∧
    List.Chain' (fun a b => b.carryIn = a.carryOut)
      (buildBalanceRows none (aggregateByMonth incsW7 expsW7)) ∧
    (∀ r ∈ buildBalanceRows none (aggregateByMonth incsW7 expsW7),
      r.carryOut = r.carryIn + r.incomes - r.expenses) :=
  monthly_series_carry incsW7 expsW7 none
    (buildBalanceRows none (aggregateByMonth incsW7 expsW7)) rfl

/-! ### C8: the per-account breakdown of the balance dataset
(`balance.js` `summarizeAccounts`) -/

/-- ASCII lowercase of one character (JS `toLowerCase` on the ASCII range). -/
def chDown (c : Char) : Char :=
  if 'A' ≤ c ∧ c ≤ 'Z' then Char.ofNat (c.toNat + 32) else c

/-- JS `String.prototype.toLowerCase` (ASCII fragment). -/
def jsLower (s : String) : String := ⟨s.data.map chDown⟩

/-- The joined account object a movement row carries
(`account:accounts!left(id,name,currency,bank_institution,institution_name)`). -/
structure AcctInfo where
  id : Nat
  name : Option String
  currency : Option String
  bank_institution : Option String
  institution_name : Option String
deriving DecidableEq

/-- An income/expense row as the balance GET route hands it to
`summarizeAccounts` (amount, currency, date, source, account id, joined
account). -/
structure MovJoinRow where
  amount : ℚ
  currency : String
  date : String
  source : SrcType
  account_id : Option Nat
  account : Option AcctInfo
deriving DecidableEq

/-- A `{ nio, usd }` pair of accumulated amounts. -/
structure Amounts where
  nio : ℚ
  usd : ℚ
deriving DecidableEq

/-- One value of the `summarizeAccounts` map. -/
structure AccEntry where
  account_id : Nat
  account : Option AcctInfo
  incomes : Amounts
  expenses : Amounts
  transfersIn : Amounts
  transfersOut : Amounts
  initial : Amounts
deriving DecidableEq

/-- `map.get(key)` on the insertion-ordered account map. -/
def msGet (m : List AccEntry) (k : Nat) : Option AccEntry :=
  m.find? (fun e => e.account_id == k)

/-- `map.set(key, value)`: replace in place, or append a new key. -/
def msSet (m : List AccEntry) (k : Nat) (v : AccEntry) : List AccEntry :=
  if m.any (fun e => e.account_id == k)
  then m.map (fun e => if e.account_id == k then v else e)
  else m ++ [v]

/-- `resolveAccountInfo`: the joined account when present, else a stub
from the raw `account_id` and the row's currency, else nothing. -/
def resolveAccountInfo (row : MovJoinRow) : Option AcctInfo :=
  match row.account with
  | some a => some a
  | none =>
    match row.account_id with
    | none => none
    | some aid =>
      some { id := aid, name := none, currency := some row.currency,
             bank_institution := none, institution_name := none }

/-- A fresh map value with zeroed buckets. -/
def freshEntry (aid : Nat) (info : Option AcctInfo) : AccEntry :=
  { account_id := aid, account := info,
    incomes := ⟨0, 0⟩, expenses := ⟨0, 0⟩, transfersIn := ⟨0, 0⟩,
    transfersOut := ⟨0, 0⟩, initial := ⟨0, 0⟩ }

/-- `existing.incomes.nio += amountNio; existing.incomes.usd += amountUsd`. -/
def entryAddIncomes (e : AccEntry) (n u : ℚ) : AccEntry :=
  { e with incomes := ⟨e.incomes.nio + n, e.incomes.usd + u⟩ }

/-- The expense bucket update. -/
def entryAddExpenses (e : AccEntry) (n u : ℚ) : AccEntry :=
  { e with expenses := ⟨e.expenses.nio + n, e.expenses.usd + u⟩ }

/-- The incoming-transfer bucket update. -/
def entryAddIn (e : AccEntry) (n u : ℚ) : AccEntry :=
  { e with transfersIn := ⟨e.transfersIn.nio + n, e.transfersIn.usd + u⟩ }

/-- The outgoing-transfer bucket update. -/
def entryAddOut (e : AccEntry) (n u : ℚ) : AccEntry :=
  { e with transfersOut := ⟨e.transfersOut.nio + n, e.transfersOut.usd + u⟩ }

/-- The `AcctInfo` view of a stored account row (what the seeding loop and
the left join expose). -/
def acctInfoOf (a : AccountRow) : AcctInfo :=
  { id := a.id, name := a.name, currency := some a.currency,
    bank_institution := a.bank_institution, institution_name := a.institution_name }

/-- The map value seeded for one owned account (initial balances converted
to both currencies, zero movement buckets). -/
def seedEntry (a : AccountRow) : AccEntry :=
  { account_id := a.id, account := some (acctInfoOf a),
    incomes := ⟨0, 0⟩, expenses := ⟨0, 0⟩, transfersIn := ⟨0, 0⟩,
    transfersOut := ⟨0, 0⟩,
    initial := ⟨toNio (.num a.initial_balance) (some a.currency),
                toUsd (.num a.initial_balance) (some a.currency)⟩ }

/-- One iteration of the seeding loop. -/
def seedStep (m : List AccEntry) (a : AccountRow) : List AccEntry :=
  msSet m a.id (seedEntry a)

/-- The seeding loop: every owned account gets an entry, even with zero
movements in range. -/
def seedAccounts (accountRows : List AccountRow) : List AccEntry :=
  accountRows.foldl seedStep []

/-- `toNio(row.amount, row.currency)` for an income/expense row. -/
def rowNio (row : MovJoinRow) : ℚ := toNio (.num row.amount) (some row.currency)

/-- `toUsd(row.amount, row.currency)` for an income/expense row. -/
def rowUsd (row : MovJoinRow) : ℚ := toUsd (.num row.amount) (some row.currency)

/-- `toNio(transfer.amount, transfer.currency)`. -/
def trNio (t : TransferRow) : ℚ := toNio (.num t.amount) (some t.currency)

/-- `toUsd(transfer.amount, transfer.currency)`. -/
def trUsd (t : TransferRow) : ℚ := toUsd (.num t.amount) (some t.currency)

/-- One iteration of the `collect` closure: skip rows that are not bank
rows with an account id; otherwise fetch or create the entry, resolve its
account info if still missing, and bump the chosen bucket with both
conversions. -/
def collectEntry (addf : AccEntry → ℚ → ℚ → AccEntry) (m : List AccEntry)
    (aid : Nat) (row : MovJoinRow) : AccEntry :=
  let e0 := (msGet m aid).getD (freshEntry aid (resolveAccountInfo row))
  let e1 := if e0.account.isSome then e0
            else { e0 with account := resolveAccountInfo row }
  addf e1 (rowNio row) (rowUsd row)

def collectStep (addf : AccEntry → ℚ → ℚ → AccEntry) (m : List AccEntry)
    (row : MovJoinRow) : List AccEntry :=
  match row.source, row.account_id with
  | SrcType.bank, some aid => msSet m aid (collectEntry addf m aid row)
  | _, _ => m

/-- The `collect(rows, bucketKey)` loop. -/
def collect (addf : AccEntry → ℚ → ℚ → AccEntry) (m : List AccEntry)
    (rows : List MovJoinRow) : List AccEntry :=
  rows.foldl (collectStep addf) m

/-- The `from` side of one transfer iteration: a bank side with an id
accrues to the outgoing bucket of its account. -/
def trFromStep (m : List AccEntry) (t : TransferRow) : List AccEntry :=
  match t.from_type, t.from_account_id with
  | SrcType.bank, some aid =>
    msSet m aid (entryAddOut ((msGet m aid).getD (freshEntry aid none)) (trNio t) (trUsd t))
  | _, _ => m

/-- The `to` side of one transfer iteration: a bank side with an id
accrues to the incoming bucket of its account. -/
def trToStep (m : List AccEntry) (t : TransferRow) : List AccEntry :=
  match t.to_type, t.to_account_id with
  | SrcType.bank, some aid =>
    msSet m aid (entryAddIn ((msGet m aid).getD (freshEntry aid none)) (trNio t) (trUsd t))
  | _, _ => m

/-- One iteration of the transfer loop: the `from` side then the `to` side. -/
def collectTransfersStep (m : List AccEntry) (t : TransferRow) : List AccEntry :=
  trToStep (trFromStep m t) t

/-- The transfer loop of `summarizeAccounts`. -/
def collectTransfers (m : List AccEntry) (rows : List TransferRow) : List AccEntry :=
  rows.foldl collectTransfersStep m

/-- One entry of the route's `accounts` array. -/
structure AccFinal where
  account_id : Nat
  account : Option AcctInfo
  incomes : Amounts
  expenses : Amounts
  transfersIn : Amounts
  transfersOut : Amounts
  netNio : ℚ
  netUsd : ℚ
deriving DecidableEq

/-- `getLabel`: `account.name ?? account.institution_name ?? account.bank_institution ?? ''`. -/
def getLabel (a : Option AcctInfo) : String :=
  match a with
  | none => ""
  | some info => info.name.getD (info.institution_name.getD (info.bank_institution.getD ""))

/-- The final mapping of one map value: net in both currencies. -/
def finalizeEntry (e : AccEntry) : AccFinal :=
  { account_id := e.account_id, account := e.account,
    incomes := e.incomes, expenses := e.expenses,
    transfersIn := e.transfersIn, transfersOut := e.transfersOut,
    netNio := e.initial.nio + e.incomes.nio + e.transfersIn.nio
      - e.expenses.nio - e.transfersOut.nio,
    netUsd := e.initial.usd + e.incomes.usd + e.transfersIn.usd
      - e.expenses.usd - e.transfersOut.usd }

/-- `summarizeAccounts`: seed every owned account, collect incomes,
expenses and both transfer sides, map to nets, and sort by display label
case-insensitively (`labelA < labelB ? -1 : 1`). -/
def summarizeAccounts (incomeRows expenseRows : List MovJoinRow)
    (transferRows : List TransferRow) (accountRows : List AccountRow) : List AccFinal :=
  ((collectTransfers
      (collect entryAddExpenses
        (collect entryAddIncomes (seedAccounts accountRows) incomeRows)
        expenseRows)
      transferRows).map finalizeEntry).mergeSort
    (fun a b => strLe (jsLower (getLabel a.account)) (jsLower (getLabel b.account)))

/-- The date-range test of the balance GET route (`gte`/`lte` on the ISO
date string). -/
def inRange (fromD toD : Option String) (date : String) : Bool :=
  (match fromD with | none => true | some f => strLe f date) &&
  (match toD with | none => true | some t => strLe date t)

/-- The left join `account:accounts!left(...)` by account id (soft-deleted
accounts still join). -/
def joinAccount (db : Db) (aid : Option Nat) : Option AcctInfo :=
  match aid with
  | none => none
  | some i => (db.accounts.find? (fun a => a.id == i)).map acctInfoOf

/-- The income rows the balance GET route feeds `summarizeAccounts`. -/
def routeIncomeJoinRows (db : Db) (u : Nat) (fromD toD : Option String) : List MovJoinRow :=
  (db.incomes.filter (fun r => r.user_id == u && !r.deleted && inRange fromD toD r.date)).map
    (fun r => { amount := r.amount, currency := r.currency, date := r.date,
                source := r.source, account_id := r.account_id,
                account := joinAccount db r.account_id })

/-- The expense rows the balance GET route feeds `summarizeAccounts`. -/
def routeExpenseJoinRows (db : Db) (u : Nat) (fromD toD : Option String) : List MovJoinRow :=
  (db.expenses.filter (fun r => r.user_id == u && !r.deleted && inRange fromD toD r.date)).map
    (fun r => { amount := r.amount, currency := r.currency, date := r.date,
                source := r.source, account_id := r.account_id,
                account := joinAccount db r.account_id })

/-- The transfer rows the balance GET route feeds `summarizeAccounts`. -/
def routeTransferRows (db : Db) (u : Nat) (fromD toD : Option String) : List TransferRow :=
  db.transfers.filter (fun r => r.user_id == u && !r.deleted && inRange fromD toD r.date)

/-- The owned, live accounts of the balance GET route. -/
def routeAccounts (db : Db) (u : Nat) : List AccountRow :=
  db.accounts.filter (fun a => a.user_id == u && !a.deleted)

/-- The `accounts` array of the balance GET response. -/
def balanceAccountsBreakdown (db : Db) (u : Nat) (fromD toD : Option String) : List AccFinal :=
  summarizeAccounts (routeIncomeJoinRows db u fromD toD)
    (routeExpenseJoinRows db u fromD toD) (routeTransferRows db u fromD toD)
    (routeAccounts db u)

/-- Does a movement row hit bank pool `k`? (the `collect` guard,
specialised to one key). -/
def bankMatch (k : Nat) (row : MovJoinRow) : Bool :=
  row.source == SrcType.bank && row.account_id == some k

/-- Does the `from` side of a transfer hit bank pool `k`? -/
def fromMatch (k : Nat) (t : TransferRow) : Bool :=
  t.from_type == SrcType.bank && t.from_account_id == some k

/-- Does the `to` side of a transfer hit bank pool `k`? -/
def toMatch (k : Nat) (t : TransferRow) : Bool :=
  t.to_type == SrcType.bank && t.to_account_id == some k

theorem find?_cons_pos {α : Type} (p : α → Bool) (a : α) (l : List α)
    (h : p a = true) : (a :: l).find? p = some a := by
  rw [List.find?_cons, h]

theorem find?_cons_neg {α : Type} (p : α → Bool) (a : α) (l : List α)
    (h : p a = false) : (a :: l).find? p = l.find? p := by
  rw [List.find?_cons, h]

theorem find?_map_set (m : List AccEntry) (k : Nat) (v : AccEntry)
    (hv : v.account_id = k)
    (h : m.any (fun e => e.account_id == k) = true) :
    (m.map (fun e => if e.account_id == k then v else e)).find?
      (fun e => e.account_id == k) = some v := by
  induction m with
  | nil => simp at h
  | cons a as ih =>
    rw [List.map_cons]
    by_cases ha : (a.account_id == k) = true
    · rw [if_pos ha]
      exact find?_cons_pos (fun e => e.account_id == k) v _ (by simp [hv])
    · have ha2 : (a.account_id == k) = false := by simpa using ha
      rw [if_neg ha, find?_cons_neg (fun e => e.account_id == k) a _ ha2]
      apply ih
      simpa [List.any_cons, ha2] using h

theorem find?_map_set_other (m : List AccEntry) (k kq : Nat) (v : AccEntry)
    (hv : v.account_id = k) (hne : kq ≠ k) :
    (m.map (fun e => if e.account_id == k then v else e)).find?
        (fun e => e.account_id == kq)
      = m.find? (fun e => e.account_id == kq) := by
  induction m with
  | nil => rfl
  | cons a as ih =>
    rw [List.map_cons]
    by_cases ha : (a.account_id == k) = true
    · have haq : (a.account_id == kq) = false := by
        rw [beq_eq_false_iff_ne, beq_iff_eq.mp ha]
        exact fun hh => hne hh.symm
      have hvq : (v.account_id == kq) = false := by
        rw [beq_eq_false_iff_ne, hv]
        exact fun hh => hne hh.symm
      rw [if_pos ha, find?_cons_neg (fun e => e.account_id == kq) v _ hvq,
        find?_cons_neg (fun e => e.account_id == kq) a _ haq]
      exact ih
    · rw [if_neg ha, List.find?_cons, List.find?_cons]
      cases hq : (a.account_id == kq) with
      | true => rfl
      | false => exact ih

theorem find?_append_single (m : List AccEntry) (p : AccEntry → Bool) (v : AccEntry)
    (h : m.find? p = none) (hv : p v = true) :
    (m ++ [v]).find? p = some v := by
  induction m with
  | nil => exact find?_cons_pos p v [] hv
  | cons a as ih =>
    rw [List.find?_cons] at h
    cases hpa : p a with
    | true => rw [hpa] at h; exact absurd h (by simp)
    | false =>
      rw [hpa] at h
      rw [List.cons_append, find?_cons_neg p a _ hpa]
      exact ih h

theorem find?_append_single_none (m : List AccEntry) (p : AccEntry → Bool)
    (v : AccEntry) (hv : p v = false) :
    (m ++ [v]).find? p = m.find? p := by
  induction m with
  | nil =>
    rw [List.nil_append, find?_cons_neg p v [] hv]
  | cons a as ih =>
    rw [List.cons_append, List.find?_cons, List.find?_cons]
    cases hpa : p a with
    | true => rfl
    | false => exact ih

theorem msGet_set_self (m : List AccEntry) (k : Nat) (v : AccEntry)
    (hv : v.account_id = k) : msGet (msSet m k v) k = some v := by
  unfold msSet msGet
  by_cases hany : m.any (fun e => e.account_id == k) = true
  · rw [if_pos hany]
    exact find?_map_set m k v hv hany
  · rw [if_neg hany]
    apply find?_append_single
    · rw [List.find?_eq_none]
      intro x hx hpx
      exact hany (List.any_eq_true.mpr ⟨x, hx, hpx⟩)
    · simp [hv]

theorem msGet_set_other (m : List AccEntry) (k kq : Nat) (v : AccEntry)
    (hv : v.account_id = k) (hne : kq ≠ k) :
    msGet (msSet m k v) kq = msGet m kq := by
  unfold msSet msGet
  by_cases hany : m.any (fun e => e.account_id == k) = true
  · rw [if_pos hany]
    exact find?_map_set_other m k kq v hv hne
  · rw [if_neg hany]
    apply find?_append_single_none
    rw [beq_eq_false_iff_ne, hv]
    exact fun hh => hne hh.symm

theorem mem_of_msGet (m : List AccEntry) (k : Nat) (e : AccEntry)
    (h : msGet m k = some e) : e ∈ m :=
  List.mem_of_find?_eq_some h

theorem msGet_id (m : List AccEntry) (k : Nat) (e : AccEntry)
    (h : msGet m k = some e) : e.account_id = k := by
  unfold msGet at h
  have hp := List.find?_some h
  exact beq_iff_eq.mp hp

theorem collectEntry_id (addf : AccEntry → ℚ → ℚ → AccEntry)
    (Hid : ∀ e n uq, (addf e n uq).account_id = e.account_id)
    (m : List AccEntry) (aid : Nat) (row : MovJoinRow) :
    (collectEntry addf m aid row).account_id = aid := by
  unfold collectEntry
  simp only []
  rw [Hid]
  cases hg : msGet m aid with
  | none =>
    simp only [hg, Option.getD_none]
    by_cases hia : (freshEntry aid (resolveAccountInfo row)).account.isSome = true
    · rw [if_pos hia]
      rfl
    · rw [if_neg hia]
      rfl
  | some e0 =>
    simp only [hg, Option.getD_some]
    by_cases hia : e0.account.isSome = true
    · rw [if_pos hia]
      exact msGet_id m aid e0 hg
    · rw [if_neg hia]
      exact msGet_id m aid e0 hg

theorem collectEntry_of_get (addf : AccEntry → ℚ → ℚ → AccEntry)
    (m : List AccEntry) (aid : Nat) (row : MovJoinRow) (e : AccEntry)
    (h : msGet m aid = some e) (hacc : e.account.isSome = true) :
    collectEntry addf m aid row = addf e (rowNio row) (rowUsd row) := by
  unfold collectEntry
  simp only [h, Option.getD_some, hacc, if_pos]

theorem collectStep_get (addf : AccEntry → ℚ → ℚ → AccEntry)
    (Hid : ∀ e n uq, (addf e n uq).account_id = e.account_id)
    (m : List AccEntry) (k : Nat) (e : AccEntry) (row : MovJoinRow)
    (h : msGet m k = some e) (hk : e.account_id = k)
    (hacc : e.account.isSome = true) :
    msGet (collectStep addf m row) k =
      some (if bankMatch k row then addf e (rowNio row) (rowUsd row) else e) := by
  unfold collectStep
  cases hsrc : row.source with
  | cash =>
    cases haid : row.account_id with
    | none =>
      have hb : bankMatch k row = false := by simp [bankMatch, hsrc]
      show msGet m k = some (if bankMatch k row then addf e (rowNio row) (rowUsd row) else e)
      rw [h, hb]
      rfl
    | some aid =>
      have hb : bankMatch k row = false := by simp [bankMatch, hsrc]
      show msGet m k = some (if bankMatch k row then addf e (rowNio row) (rowUsd row) else e)
      rw [h, hb]
      rfl
  | bank =>
    cases haid : row.account_id with
    | none =>
      have hb : bankMatch k row = false := by simp [bankMatch, haid]
      show msGet m k = some (if bankMatch k row then addf e (rowNio row) (rowUsd row) else e)
      rw [h, hb]
      rfl
    | some aid =>
      show msGet (msSet m aid (collectEntry addf m aid row)) k
        = some (if bankMatch k row then addf e (rowNio row) (rowUsd row) else e)
      by_cases hik : aid = k
      · subst hik
        have hb : bankMatch aid row = true := by simp [bankMatch, hsrc, haid]
        rw [hb, if_pos rfl, collectEntry_of_get addf m aid row e h hacc]
        exact msGet_set_self _ _ _ (by rw [Hid]; exact hk)
      · have hb : bankMatch k row = false := by simp [bankMatch, haid, hik]
        rw [msGet_set_other m aid k _ (collectEntry_id addf Hid m aid row)
          (fun hh => hik hh.symm), h, hb]
        rfl

theorem collect_get (addf : AccEntry → ℚ → ℚ → AccEntry)
    (Hid : ∀ e n uq, (addf e n uq).account_id = e.account_id)
    (Hacc : ∀ e n uq, (addf e n uq).account = e.account)
    (rows : List MovJoinRow) :
    ∀ (m : List AccEntry) (k : Nat) (e : AccEntry),
      msGet m k = some e → e.account_id = k → e.account.isSome = true →
      msGet (collect addf m rows) k =
        some (rows.foldl (fun acc row =>
          if bankMatch k row then addf acc (rowNio row) (rowUsd row) else acc) e) := by
  induction rows with
  | nil =>
    intro m k e h _ _
    exact h
  | cons row rest ih =>
    intro m k e h hk hacc
    have hstep := collectStep_get addf Hid m k e row h hk hacc
    have hk2 : (if bankMatch k row then addf e (rowNio row) (rowUsd row) else e).account_id = k := by
      by_cases hb : bankMatch k row = true
      · rw [if_pos hb, Hid]
        exact hk
      · rw [if_neg hb]
        exact hk
    have hacc2 : (if bankMatch k row then addf e (rowNio row) (rowUsd row) else e).account.isSome = true := by
      by_cases hb : bankMatch k row = true
      · rw [if_pos hb, Hacc]
        exact hacc
      · rw [if_neg hb]
        exact hacc
    have hrest := ih (collectStep addf m row) k _ hstep hk2 hacc2
    simpa only [collect, List.foldl_cons] using hrest

theorem foldAddIncomes (k : Nat) (rows : List MovJoinRow) :
    ∀ e : AccEntry,
      rows.foldl (fun acc row =>
        if bankMatch k row then entryAddIncomes acc (rowNio row) (rowUsd row) else acc) e =
      { e with
        incomes := ⟨e.incomes.nio + ((rows.filter (bankMatch k)).map rowNio).sum,
                    e.incomes.usd + ((rows.filter (bankMatch k)).map rowUsd).sum⟩ } := by
  induction rows with
  | nil =>
    intro e
    simp only [List.foldl_nil, List.filter_nil, List.map_nil, List.sum_nil, add_zero]
  | cons row rest ih =>
    intro e
    by_cases hb : bankMatch k row = true
    · rw [List.foldl_cons, if_pos hb, ih, List.filter_cons_of_pos hb,
        List.map_cons, List.map_cons, List.sum_cons, List.sum_cons]
      simp only [entryAddIncomes, AccEntry.mk.injEq, Amounts.mk.injEq,
        eq_self_iff_true, true_and, and_true]
      exact ⟨by ring, by ring⟩
    · rw [List.foldl_cons, if_neg hb, ih, List.filter_cons_of_neg (by simpa using hb)]

theorem foldAddExpenses (k : Nat) (rows : List MovJoinRow) :
    ∀ e : AccEntry,
      rows.foldl (fun acc row =>
        if bankMatch k row then entryAddExpenses acc (rowNio row) (rowUsd row) else acc) e =
      { e with
        expenses := ⟨e.expenses.nio + ((rows.filter (bankMatch k)).map rowNio).sum,
                     e.expenses.usd + ((rows.filter (bankMatch k)).map rowUsd).sum⟩ } := by
  induction rows with
  | nil =>
    intro e
    simp only [List.foldl_nil, List.filter_nil, List.map_nil, List.sum_nil, add_zero]
  | cons row rest ih =>
    intro e
    by_cases hb : bankMatch k row = true
    · rw [List.foldl_cons, if_pos hb, ih, List.filter_cons_of_pos hb,
        List.map_cons, List.map_cons, List.sum_cons, List.sum_cons]
      simp only [entryAddExpenses, AccEntry.mk.injEq, Amounts.mk.injEq,
        eq_self_iff_true, true_and, and_true]
      exact ⟨by ring, by ring⟩
    · rw [List.foldl_cons, if_neg hb, ih, List.filter_cons_of_neg (by simpa using hb)]

/-- The effect of one transfer iteration on the entry of a single key. -/
def transferEntryStep (k : Nat) (acc : AccEntry) (t : TransferRow) : AccEntry :=
  let acc1 := if fromMatch k t then entryAddOut acc (trNio t) (trUsd t) else acc
  if toMatch k t then entryAddIn acc1 (trNio t) (trUsd t) else acc1

theorem trFromStep_get (m : List AccEntry) (t : TransferRow) (k : Nat) (e : AccEntry)
    (h : msGet m k = some e) (hk : e.account_id = k) :
    msGet (trFromStep m t) k =
      some (if fromMatch k t then entryAddOut e (trNio t) (trUsd t) else e) := by
  unfold trFromStep
  cases hsrc : t.from_type with
  | cash =>
    cases haid : t.from_account_id with
    | none =>
      have hb : fromMatch k t = false := by simp [fromMatch, hsrc]
      show msGet m k = some (if fromMatch k t then entryAddOut e (trNio t) (trUsd t) else e)
      rw [h, hb]
      rfl
    | some aid =>
      have hb : fromMatch k t = false := by simp [fromMatch, hsrc]
      show msGet m k = some (if fromMatch k t then entryAddOut e (trNio t) (trUsd t) else e)
      rw [h, hb]
      rfl
  | bank =>
    cases haid : t.from_account_id with
    | none =>
      have hb : fromMatch k t = false := by simp [fromMatch, haid]
      show msGet m k = some (if fromMatch k t then entryAddOut e (trNio t) (trUsd t) else e)
      rw [h, hb]
      rfl
    | some aid =>
      show msGet (msSet m aid
          (entryAddOut ((msGet m aid).getD (freshEntry aid none)) (trNio t) (trUsd t))) k
        = some (if fromMatch k t then entryAddOut e (trNio t) (trUsd t) else e)
      by_cases hik : aid = k
      · subst hik
        have hb : fromMatch aid t = true := by simp [fromMatch, hsrc, haid]
        rw [hb, if_pos rfl, h]
        simp only [Option.getD_some]
        exact msGet_set_self _ _ _ hk
      · have hb : fromMatch k t = false := by simp [fromMatch, haid, hik]
        have hid : (entryAddOut ((msGet m aid).getD (freshEntry aid none))
            (trNio t) (trUsd t)).account_id = aid := by
          show ((msGet m aid).getD (freshEntry aid none)).account_id = aid
          cases hg : msGet m aid with
          | none => rfl
          | some e0 =>
            simp only [Option.getD_some]
            exact msGet_id m aid e0 hg
        rw [msGet_set_other m aid k _ hid (fun hh => hik hh.symm), h, hb]
        rfl

theorem trToStep_get (m : List AccEntry) (t : TransferRow) (k : Nat) (e : AccEntry)
    (h : msGet m k = some e) (hk : e.account_id = k) :
    msGet (trToStep m t) k =
      some (if toMatch k t then entryAddIn e (trNio t) (trUsd t) else e) := by
  unfold trToStep
  cases hsrc : t.to_type with
  | cash =>
    cases haid : t.to_account_id with
    | none =>
      have hb : toMatch k t = false := by simp [toMatch, hsrc]
      show msGet m k = some (if toMatch k t then entryAddIn e (trNio t) (trUsd t) else e)
      rw [h, hb]
      rfl
    | some aid =>
      have hb : toMatch k t = false := by simp [toMatch, hsrc]
      show msGet m k = some (if toMatch k t then entryAddIn e (trNio t) (trUsd t) else e)
      rw [h, hb]
      rfl
  | bank =>
    cases haid : t.to_account_id with
    | none =>
      have hb : toMatch k t = false := by simp [toMatch, haid]
      show msGet m k = some (if toMatch k t then entryAddIn e (trNio t) (trUsd t) else e)
      rw [h, hb]
      rfl
    | some aid =>
      show msGet (msSet m aid
          (entryAddIn ((msGet m aid).getD (freshEntry aid none)) (trNio t) (trUsd t))) k
        = some (if toMatch k t then entryAddIn e (trNio t) (trUsd t) else e)
      by_cases hik : aid = k
      · subst hik
        have hb : toMatch aid t = true := by simp [toMatch, hsrc, haid]
        rw [hb, if_pos rfl, h]
        simp only [Option.getD_some]
        exact msGet_set_self _ _ _ hk
      · have hb : toMatch k t = false := by simp [toMatch, haid, hik]
        have hid : (entryAddIn ((msGet m aid).getD (freshEntry aid none))
            (trNio t) (trUsd t)).account_id = aid := by
          show ((msGet m aid).getD (freshEntry aid none)).account_id = aid
          cases hg : msGet m aid with
          | none => rfl
          | some e0 =>
            simp only [Option.getD_some]
            exact msGet_id m aid e0 hg
        rw [msGet_set_other m aid k _ hid (fun hh => hik hh.symm), h, hb]
        rfl

theorem collectTransfersStep_get (m : List AccEntry) (t : TransferRow) (k : Nat)
    (e : AccEntry) (h : msGet m k = some e) (hk : e.account_id = k) :
    msGet (collectTransfersStep m t) k = some (transferEntryStep k e t) := by
  have h1 := trFromStep_get m t k e h hk
  have hk1 : (if fromMatch k t then entryAddOut e (trNio t) (trUsd t) else e).account_id = k := by
    by_cases hb : fromMatch k t = true
    · rw [if_pos hb]
      exact hk
    · rw [if_neg hb]
      exact hk
  exact trToStep_get (trFromStep m t) t k _ h1 hk1

theorem transferEntryStep_id (k : Nat) (e : AccEntry) (t : TransferRow)
    (hk : e.account_id = k) : (transferEntryStep k e t).account_id = k := by
  show (if toMatch k t then
      entryAddIn (if fromMatch k t then entryAddOut e (trNio t) (trUsd t) else e)
        (trNio t) (trUsd t)
    else (if fromMatch k t then entryAddOut e (trNio t) (trUsd t) else e)).account_id = k
  by_cases h2 : toMatch k t = true
  · rw [if_pos h2]
    by_cases h1 : fromMatch k t = true
    · rw [if_pos h1]
      exact hk
    · rw [if_neg h1]
      exact hk
  · rw [if_neg h2]
    by_cases h1 : fromMatch k t = true
    · rw [if_pos h1]
      exact hk
    · rw [if_neg h1]
      exact hk

theorem collectTransfers_get (rows : List TransferRow) :
    ∀ (m : List AccEntry) (k : Nat) (e : AccEntry),
      msGet m k = some e → e.account_id = k →
      msGet (collectTransfers m rows) k =
        some (rows.foldl (fun acc t => transferEntryStep k acc t) e) := by
  induction rows with
  | nil =>
    intro m k e h _
    exact h
  | cons t rest ih =>
    intro m k e h hk
    have hstep := collectTransfersStep_get m t k e h hk
    have hrest := ih (collectTransfersStep m t) k _ hstep (transferEntryStep_id k e t hk)
    simpa only [collectTransfers, List.foldl_cons] using hrest

theorem foldAddTransfers (k : Nat) (rows : List TransferRow) :
    ∀ e : AccEntry,
      rows.foldl (fun acc t => transferEntryStep k acc t) e =
      { e with
        transfersIn := ⟨e.transfersIn.nio + ((rows.filter (toMatch k)).map trNio).sum,
                        e.transfersIn.usd + ((rows.filter (toMatch k)).map trUsd).sum⟩,
        transfersOut := ⟨e.transfersOut.nio + ((rows.filter (fromMatch k)).map trNio).sum,
                         e.transfersOut.usd + ((rows.filter (fromMatch k)).map trUsd).sum⟩ } := by
  induction rows with
  | nil =>
    intro e
    simp only [List.foldl_nil, List.filter_nil, List.map_nil, List.sum_nil, add_zero]
  | cons t rest ih =>
    intro e
    rw [List.foldl_cons, ih]
    by_cases h1 : fromMatch k t = true
    · by_cases h2 : toMatch k t = true
      · have hstep : transferEntryStep k e t
            = entryAddIn (entryAddOut e (trNio t) (trUsd t)) (trNio t) (trUsd t) := by
          show (if toMatch k t then
              entryAddIn (if fromMatch k t then entryAddOut e (trNio t) (trUsd t) else e)
                (trNio t) (trUsd t)
            else (if fromMatch k t then entryAddOut e (trNio t) (trUsd t) else e))
            = entryAddIn (entryAddOut e (trNio t) (trUsd t)) (trNio t) (trUsd t)
          rw [if_pos h2, if_pos h1]
        have hf1 : List.filter (fromMatch k) (t :: rest) = t :: List.filter (fromMatch k) rest :=
          List.filter_cons_of_pos h1
        have hf2 : List.filter (toMatch k) (t :: rest) = t :: List.filter (toMatch k) rest :=
          List.filter_cons_of_pos h2
        rw [hstep, hf1, hf2, List.map_cons, List.map_cons, List.map_cons, List.map_cons,
          List.sum_cons, List.sum_cons, List.sum_cons, List.sum_cons]
        simp only [entryAddIn, entryAddOut, AccEntry.mk.injEq, Amounts.mk.injEq,
          eq_self_iff_true, true_and, and_true]
        refine ⟨⟨by ring, by ring⟩, by ring, by ring⟩
      · have hstep : transferEntryStep k e t = entryAddOut e (trNio t) (trUsd t) := by
          show (if toMatch k t then
              entryAddIn (if fromMatch k t then entryAddOut e (trNio t) (trUsd t) else e)
                (trNio t) (trUsd t)
            else (if fromMatch k t then entryAddOut e (trNio t) (trUsd t) else e))
            = entryAddOut e (trNio t) (trUsd t)
          rw [if_neg h2, if_pos h1]
        have hf1 : List.filter (fromMatch k) (t :: rest) = t :: List.filter (fromMatch k) rest :=
          List.filter_cons_of_pos h1
        have hf2 : List.filter (toMatch k) (t :: rest) = List.filter (toMatch k) rest :=
          List.filter_cons_of_neg (by simpa using h2)
        rw [hstep, hf1, hf2, List.map_cons, List.map_cons, List.sum_cons, List.sum_cons]
        simp only [entryAddOut, AccEntry.mk.injEq, Amounts.mk.injEq,
          eq_self_iff_true, true_and, and_true]
        refine ⟨by ring, by ring⟩
    · by_cases h2 : toMatch k t = true
      · have hstep : transferEntryStep k e t = entryAddIn e (trNio t) (trUsd t) := by
          show (if toMatch k t then
              entryAddIn (if fromMatch k t then entryAddOut e (trNio t) (trUsd t) else e)
                (trNio t) (trUsd t)
            else (if fromMatch k t then entryAddOut e (trNio t) (trUsd t) else e))
            = entryAddIn e (trNio t) (trUsd t)
          rw [if_pos h2, if_neg h1]
        have hf1 : List.filter (fromMatch k) (t :: rest) = List.filter (fromMatch k) rest :=
          List.filter_cons_of_neg (by simpa using h1)
        have hf2 : List.filter (toMatch k) (t :: rest) = t :: List.filter (toMatch k) rest :=
          List.filter_cons_of_pos h2
        rw [hstep, hf1, hf2, List.map_cons, List.map_cons, List.sum_cons, List.sum_cons]
        simp only [entryAddIn, AccEntry.mk.injEq, Amounts.mk.injEq,
          eq_self_iff_true, true_and, and_true]
        refine ⟨by ring, by ring⟩
      · have hstep : transferEntryStep k e t = e := by
          show (if toMatch k t then
              entryAddIn (if fromMatch k t then entryAddOut e (trNio t) (trUsd t) else e)
                (trNio t) (trUsd t)
            else (if fromMatch k t then entryAddOut e (trNio t) (trUsd t) else e)) = e
          rw [if_neg h2, if_neg h1]
        have hf1 : List.filter (fromMatch k) (t :: rest) = List.filter (fromMatch k) rest :=
          List.filter_cons_of_neg (by simpa using h1)
        have hf2 : List.filter (toMatch k) (t :: rest) = List.filter (toMatch k) rest :=
          List.filter_cons_of_neg (by simpa using h2)
        rw [hstep, hf1, hf2]

theorem seed_fold_preserve (accs : List AccountRow) (k : Nat) :
    (∀ a ∈ accs, a.id ≠ k) →
    ∀ m : List AccEntry, msGet (accs.foldl seedStep m) k = msGet m k := by
  induction accs with
  | nil =>
    intro _ m
    rfl
  | cons b rest ih =>
    intro hne m
    rw [List.foldl_cons, ih (fun a ha => hne a (List.mem_cons_of_mem b ha)) (seedStep m b)]
    exact msGet_set_other m b.id k (seedEntry b) rfl
      (fun hh => hne b (List.mem_cons_self b rest) hh.symm)

theorem seed_fold_get (accs : List AccountRow) :
    (accs.map (fun a => a.id)).Nodup →
    ∀ (m : List AccEntry) (a : AccountRow), a ∈ accs →
      msGet (accs.foldl seedStep m) a.id = some (seedEntry a) := by
  induction accs with
  | nil =>
    intro _ m a ha
    exact absurd ha (List.not_mem_nil a)
  | cons b rest ih =>
    intro hnd m a ha
    rw [List.map_cons, List.nodup_cons] at hnd
    rw [List.foldl_cons]
    rcases List.mem_cons.mp ha with heq | hmem
    · subst heq
      rw [seed_fold_preserve rest a.id
        (fun x hx hh => hnd.1 (by rw [← hh]; exact List.mem_map_of_mem (fun y => y.id) hx))
        (seedStep m a)]
      exact msGet_set_self m a.id (seedEntry a) rfl
    · exact ih hnd.2 (seedStep m b) a hmem

theorem seed_get (accs : List AccountRow) (hnd : (accs.map (fun a => a.id)).Nodup)
    (a : AccountRow) (ha : a ∈ accs) :
    msGet (seedAccounts accs) a.id = some (seedEntry a) :=
  seed_fold_get accs hnd [] a ha

theorem strLe_empty (s : String) (h : strLe s "" = true) : s = "" := by
  cases s with
  | mk data =>
    cases data with
    | nil => rfl
    | cons c cs => simp [strLe, lexLe] at h

/-- The case-insensitive display label the breakdown sorts by. -/
def breakdownLabel (e : AccFinal) : String := jsLower (getLabel e.account)

/-- What the C8 claim asserts of the balance GET accounts breakdown:
one entry per owned live account carrying the initial-plus-in-range-net
in both currencies, and label-sorted output with empty labels first. -/
def breakdownSpec (db : Db) (u : Nat) (fromD toD : Option String) : Prop :=
  (∀ a ∈ routeAccounts db u,
    ∃ e ∈ balanceAccountsBreakdown db u fromD toD,
      e.account_id = a.id ∧
      e.netNio = toNio (.num a.initial_balance) (some a.currency)
        + (((routeIncomeJoinRows db u fromD toD).filter (bankMatch a.id)).map rowNio).sum
        + (((routeTransferRows db u fromD toD).filter (toMatch a.id)).map trNio).sum
        - (((routeExpenseJoinRows db u fromD toD).filter (bankMatch a.id)).map rowNio).sum
        - (((routeTransferRows db u fromD toD).filter (fromMatch a.id)).map trNio).sum ∧
      e.netUsd = toUsd (.num a.initial_balance) (some a.currency)
        + (((routeIncomeJoinRows db u fromD toD).filter (bankMatch a.id)).map rowUsd).sum
        + (((routeTransferRows db u fromD toD).filter (toMatch a.id)).map trUsd).sum
        - (((routeExpenseJoinRows db u fromD toD).filter (bankMatch a.id)).map rowUsd).sum
        - (((routeTransferRows db u fromD toD).filter (fromMatch a.id)).map trUsd).sum) ∧
  List.Pairwise (fun x y => strLe (breakdownLabel x) (breakdownLabel y) = true)
    (balanceAccountsBreakdown db u fromD toD) ∧
  List.Pairwise (fun x y => breakdownLabel y = "" → breakdownLabel x = "")
    (balanceAccountsBreakdown db u fromD toD)

theorem breakdown_mem (db : Db) (u : Nat) (fromD toD : Option String) (x : AccFinal)
    (hx : x ∈ (collectTransfers
      (collect entryAddExpenses
        (collect entryAddIncomes (seedAccounts (routeAccounts db u))
          (routeIncomeJoinRows db u fromD toD))
        (routeExpenseJoinRows db u fromD toD))
      (routeTransferRows db u fromD toD)).map finalizeEntry) :
    x ∈ balanceAccountsBreakdown db u fromD toD := by
  unfold balanceAccountsBreakdown summarizeAccounts
  exact (List.mergeSort_perm _ _).mem_iff.mpr hx

/-- C8: the per-account breakdown of the balance dataset contains one
entry for every non-deleted account owned by the user (even with zero
movements in range); each entry's net equals the account's initial
balance plus in-range incomes and incoming transfers minus in-range
expenses and outgoing transfers, reported in both currencies; and the
entries are sorted by display label compared case-insensitively, with
empty labels ordered first. -/
theorem accounts_breakdown (db : Db) (u : Nat) (fromD toD : Option String)
    (hnd : ((routeAccounts db u).map (fun a => a.id)).Nodup) :
    breakdownSpec db u fromD toD := by
  have hsorted0 : List.Pairwise
      (fun x y => strLe (jsLower (getLabel x.account)) (jsLower (getLabel y.account)) = true)
      (balanceAccountsBreakdown db u fromD toD) := by
    unfold balanceAccountsBreakdown summarizeAccounts
    apply List.sorted_mergeSort
    · intro x y z hxy hyz
      exact strLe_trans _ _ _ hxy hyz
    · intro x y
      rcases strLe_total (jsLower (getLabel x.account)) (jsLower (getLabel y.account))
        with h | h <;> simp [h]
  have hsorted : List.Pairwise
      (fun x y => strLe (breakdownLabel x) (breakdownLabel y) = true)
      (balanceAccountsBreakdown db u fromD toD) := hsorted0
  refine ⟨?_, hsorted, hsorted.imp (fun hxy hy => strLe_empty _ (hy ▸ hxy))⟩
  intro a ha
  have h0 : msGet (seedAccounts (routeAccounts db u)) a.id = some (seedEntry a) :=
    seed_get _ hnd a ha
  have h1 := collect_get entryAddIncomes (fun e n uq => rfl) (fun e n uq => rfl)
    (routeIncomeJoinRows db u fromD toD) (seedAccounts (routeAccounts db u)) a.id
    (seedEntry a) h0 rfl rfl
  rw [foldAddIncomes a.id (routeIncomeJoinRows db u fromD toD) (seedEntry a)] at h1
  have h2 := collect_get entryAddExpenses (fun e n uq => rfl) (fun e n uq => rfl)
    (routeExpenseJoinRows db u fromD toD) _ a.id _ h1 rfl rfl
  rw [foldAddExpenses a.id (routeExpenseJoinRows db u fromD toD) _] at h2
  have h3 := collectTransfers_get (routeTransferRows db u fromD toD) _ a.id _ h2 rfl
  rw [foldAddTransfers a.id (routeTransferRows db u fromD toD) _] at h3
  have hmem := mem_of_msGet _ _ _ h3
  have hmem2 := List.mem_map_of_mem finalizeEntry hmem
  have hmem3 := breakdown_mem db u fromD toD _ hmem2
  exact ⟨_, hmem3, rfl,
    by simp only [finalizeEntry, seedEntry]; ring,
    by simp only [finalizeEntry, seedEntry]; ring⟩

/-- The account of the C8 witness store. -/
def acctW8 : AccountRow :=
  { id := 3, user_id := 1, name := some "Lafise", bank_institution := none,
    institution_name := none, currency := "NIO", initial_balance := 50,
    deleted := false }

/-- The store for the C8 witness: one owned live bank account. -/
def dbW8 : Db := { incomes := [], expenses := [], transfers := [], accounts := [acctW8] }

/-- Witness for C8 at a concrete store with distinct account ids. -/
theorem accounts_breakdown_witness :
    ((routeAccounts dbW8 1).map (fun a => a.id)).Nodup ∧ breakdownSpec dbW8 1 none none :=
  ⟨by decide, accounts_breakdown dbW8 1 none none (by decide)⟩

end Conta
